import Mathlib

/-
  Verification development for the Postmortem MRI processing programs
  (PostmortemMRIConvert.py, NiftiPyPy.py, NiftiMirror.py).

  Modeling conventions (shallow embedding of Python 2):
  * A scan volume is a nested list of voxel values, indexed
    [axial][sagittal][coronal], mirroring the Python lists of lists.
  * Python numbers (ints and floats) are modeled by the exact
    unnormalized rational type PyF below (numerator / positive
    denominator).  In smart_voxel_flip, the one routine whose float
    arithmetic is value-sensitive (its results are truncated by int()
    and IEEE rounding moves some of them across an integer), every
    float operation is modeled bit-exactly: dblRound below rounds an
    exact rational to the nearest IEEE-754 double (53-bit significand,
    round half to even, subnormal exponents clamped at 2^-1074;
    overflow to infinity is not modeled, as the program's intensities
    stay far below 2^1024).  Everywhere else the quantities that float
    arithmetic produces are reproduced exactly by exact rationals: the
    thresholds and scale factors in the remaining routines (wm_min*.90,
    the 0.20/0.40 products, int(v/5.0) binning, the blur-box radii)
    are all exactly representable as doubles and their comparisons are
    not within one ulp of a boundary, so the exact value and the
    rounded value decide alike.
  * Python list indexing l[i] with a negative i wraps to l[len l + i]
    when -len l <= i < 0, and raises IndexError otherwise; pyGet below
    reproduces this, returning none for the raising case (the callers
    in the program catch IndexError with try/except and skip).
  * int(x) truncates toward zero; pyInt below reproduces this.
  * Functions that can raise an uncaught exception are modeled with
    Option (none = exception propagates).
-/

namespace PMRI

set_option maxRecDepth 4000

/-- PyF models a Python number (int or float) as an exact unnormalized
rational: the value is num / den, with den kept positive by all the
constructors used in this file. -/
structure PyF where
  num : ℤ
  den : ℕ
  deriving DecidableEq, Repr

/-- pf n is the Python integer n. -/
def pf (n : ℤ) : PyF := ⟨n, 1⟩

def pfAdd (a b : PyF) : PyF := ⟨a.num * b.den + b.num * a.den, a.den * b.den⟩

def pfSub (a b : PyF) : PyF := ⟨a.num * b.den - b.num * a.den, a.den * b.den⟩

def pfMul (a b : PyF) : PyF := ⟨a.num * b.num, a.den * b.den⟩

/-- Exact division; the sign of the divisor is moved into the numerator so
that the denominator stays nonnegative. -/
def pfDiv (a b : PyF) : PyF :=
  if 0 ≤ b.num then ⟨a.num * b.den, a.den * b.num.toNat⟩
  else ⟨-(a.num * b.den), a.den * (-b.num).toNat⟩

/-- Value comparison a < b (correct whenever both denominators are positive,
which all constructors here preserve). -/
def pfLt (a b : PyF) : Prop := a.num * b.den < b.num * a.den

/-- Value comparison a ≤ b. -/
def pfLe (a b : PyF) : Prop := a.num * b.den ≤ b.num * a.den

/-- Value equality a == b (Python ==): cross multiplication. -/
def pfEq (a b : PyF) : Prop := a.num * b.den = b.num * a.den

instance (a b : PyF) : Decidable (pfLt a b) := by unfold pfLt; infer_instance

instance (a b : PyF) : Decidable (pfLe a b) := by unfold pfLe; infer_instance

instance (a b : PyF) : Decidable (pfEq a b) := by unfold pfEq; infer_instance

/-- Python int(x): truncation toward zero (the denominator is positive, so
this is truncating integer division of num by den). -/
def pyInt (x : PyF) : ℤ := Int.tdiv x.num x.den

/-- Python list access l[i] for an integer index: nonnegative indices are
looked up directly, negative indices of magnitude at most the length wrap
around to the end of the list, anything else raises IndexError (none). -/
def pyGet {α : Type} (l : List α) (i : ℤ) : Option α :=
  if 0 ≤ i then l[i.toNat]?
  else if -i ≤ (l.length : ℤ) then l[l.length - (-i).toNat]? else none

abbrev Row := List PyF
abbrev Plane := List Row
abbrev Grid := List Plane

/-- Python img[a][s][c] under a chain of try/except: any failing lookup
gives none. -/
def pyGet3 (g : Grid) (a s c : ℤ) : Option PyF :=
  (pyGet g a).bind fun pl => (pyGet pl s).bind fun r => pyGet r c

/-- The list of integers lo, lo+1, ..., hi-1 (Python range(lo, hi)). -/
def intRange (lo hi : ℤ) : List ℤ :=
  (List.range (hi - lo).toNat).map fun k => lo + (k : ℤ)

def cellAt? (g : Grid) (a s c : ℕ) : Option PyF :=
  g[a]?.bind fun pl => pl[s]?.bind fun r => r[c]?

def cellAt (g : Grid) (a s c : ℕ) : PyF :=
  (cellAt? g a s c).getD (pf 0)

def setCell (g : Grid) (a s c : ℕ) (v : PyF) : Grid :=
  g.set a ((g.getD a []).set s (((g.getD a []).getD s []).set c v))

/-- List.mapIdx with an explicit starting index, written by hand so that
its getElem? behavior is easy to reason about. -/
def mapIdxF {α β : Type} (f : ℕ → α → β) : ℕ → List α → List β
  | _, [] => []
  | i, x :: xs => f i x :: mapIdxF f (i + 1) xs

/-- Module-level constant of both processing scripts. -/
def background : PyF := pf 0

/-- Module-level constant mask_set = 10000. -/
def mask_set : PyF := pf 10000

/-- Module-level constant norm_intens = 1785. -/
def norm_intens : ℤ := 1785

/-- Module-level constant blur_range = 2.5 mm. -/
def blur_range : PyF := ⟨25, 10⟩

/-- All cells of the grid are Python ints (denominator 1). -/
def IntGrid (g : Grid) : Prop :=
  ∀ pl ∈ g, ∀ r ∈ pl, ∀ v ∈ r, v.den = 1

/-- The grid is a dense 3D array with the given dimensions. -/
def Rect (g : Grid) (A S W : ℕ) : Prop :=
  g.length = A ∧ ∀ pl ∈ g, pl.length = S ∧ ∀ r ∈ pl, r.length = W

instance (g : Grid) : Decidable (IntGrid g) := by unfold IntGrid; infer_instance

instance (g : Grid) (A S W : ℕ) : Decidable (Rect g A S W) := by
  unfold Rect; infer_instance

/-
  iso_px_check (PostmortemMRIConvert.py lines 210-220): counts, over the
  3x3x3 cube of offsets around (a, s, c), the neighbors whose lookup
  succeeds and whose value == background; failed lookups are skipped by
  the try/except.
-/
def iso_px_check (g : Grid) (a s c : ℤ) : ℕ :=
  (intRange (a - 1) (a + 2)).foldl (fun n1 al =>
    (intRange (s - 1) (s + 2)).foldl (fun n2 sl =>
      (intRange (c - 1) (c + 2)).foldl (fun n3 cl =>
        match pyGet3 g al sl cl with
        | some v => if pfEq v background then n3 + 1 else n3
        | none => n3) n2) n1) 0

/-- Claim-side variant of iso_px_check, following the spec's words: a
neighbor position outside the grid bounds (on either side) is absent and
never counts. -/
def iso_px_check_spec (g : Grid) (a s c : ℤ) : ℕ :=
  (intRange (a - 1) (a + 2)).foldl (fun n1 al =>
    (intRange (s - 1) (s + 2)).foldl (fun n2 sl =>
      (intRange (c - 1) (c + 2)).foldl (fun n3 cl =>
        if 0 ≤ al ∧ 0 ≤ sl ∧ 0 ≤ cl then
          match pyGet3 g al sl cl with
          | some v => if pfEq v background then n3 + 1 else n3
          | none => n3
        else n3) n2) n1) 0

/-
  bound_check (PostmortemMRIConvert.py lines 497-516): counts background
  voxels in the box of per-axis radii (ra, rs, rc) around (a, s, c),
  skipping lookups that raise.
-/
def bound_check (g : Grid) (a ra s rs c rc : ℤ) : ℕ :=
  (intRange (a - ra) (a + ra + 1)).foldl (fun n1 al =>
    (intRange (s - rs) (s + rs + 1)).foldl (fun n2 sl =>
      (intRange (c - rc) (c + rc + 1)).foldl (fun n3 cl =>
        match pyGet3 g al sl cl with
        | some v => if pfEq v background then n3 + 1 else n3
        | none => n3) n2) n1) 0

/-- Largest k such that d * 2^k ≤ n, computed with explicit fuel (adequate
whenever fuel ≥ k); used to find the binary exponent of a rational. -/
def flog2p (n : ℕ) : ℕ → ℕ → ℕ
  | _, 0 => 0
  | d, fuel + 1 => if d * 2 ≤ n then flog2p n (d * 2) fuel + 1 else 0

/-- Floor of the base-2 logarithm of the positive rational n / d, i.e. the
unique E with 2^E ≤ n/d < 2^(E+1); the fuel 1100 covers every magnitude in
the IEEE-754 double range and far beyond. -/
def pfFloorLog2 (n d : ℕ) : ℤ :=
  if d ≤ n then (flog2p n d 1100 : ℤ)
  else
    let k := flog2p d n 1100
    if n * Nat.pow 2 k = d then -(k : ℤ) else -(k : ℤ) - 1

/-- Round the nonnegative rational mnum / mden to the nearest natural
number, ties to even (the rounding IEEE-754 applies to the scaled
significand). -/
def rne (mnum mden : ℕ) : ℕ :=
  let q := mnum / mden
  let r := mnum % mden
  if 2 * r < mden then q
  else if mden < 2 * r then q + 1
  else if q % 2 = 0 then q else q + 1

/-- Round an exact rational to the nearest IEEE-754 double: scale the
magnitude so that it lies in [2^52, 2^53) (or clamp the scale at 2^1074
for subnormal magnitudes), round the scaled value half-to-even, and
reattach the sign.  Exactly representable values (all integers below
2^53 among them) are fixed points.  Overflow to infinity is not modeled;
the program's voxel intensities stay far below the 2^1024 threshold. -/
def dblRound (x : PyF) : PyF :=
  if x.num = 0 ∨ x.den = 0 then x
  else
    let n := x.num.natAbs
    let d := x.den
    let s : ℤ :=
      if pfFloorLog2 n d < -1022 then 1074 else 52 - pfFloorLog2 n d
    let m : ℕ := if 0 ≤ s then rne (n * Nat.pow 2 s.toNat) d else rne n (d * Nat.pow 2 (-s).toNat)
    if x.num < 0 then
      (if 0 ≤ s then ⟨-(m : ℤ), Nat.pow 2 s.toNat⟩ else ⟨-((m : ℤ) * Nat.pow 2 (-s).toNat), 1⟩)
    else
      (if 0 ≤ s then ⟨(m : ℤ), Nat.pow 2 s.toNat⟩ else ⟨(m : ℤ) * Nat.pow 2 (-s).toNat, 1⟩)

/-
  smart_voxel_flip (PostmortemMRIConvert.py lines 372-393): the contrast
  inverter.  Values in [wm_min, wm_max) are mapped down the reversed gray
  ramp, values in [gm_min, gm_max) down the reversed white ramp, all
  others to background, each truncated to an integer by int().  The
  program computes the ramps in IEEE doubles - wm_range and gm_range are
  built by float(), and the division, the multiplication and the final
  addition/subtraction are float operations - so each of those steps is
  the exact operation followed by dblRound, in the source's evaluation
  order: intensity_rating = (wm_max - voxel) / wm_range first, then the
  multiplication by the other range, then the addition of gm_min (and
  symmetrically for the gray band), then int().
-/
def flip_voxel (wm_min wm_max gm_min gm_max : PyF) (v : PyF) : PyF :=
  let wm_range := dblRound (pfSub wm_max wm_min)
  let gm_range := dblRound (pfSub gm_max gm_min)
  if pfLe wm_min v ∧ pfLt v wm_max then
    pf (pyInt (dblRound (pfAdd gm_min
      (dblRound (pfMul gm_range (dblRound (pfDiv (dblRound (pfSub wm_max v)) wm_range)))))))
  else if pfLe gm_min v ∧ pfLt v gm_max then
    pf (pyInt (dblRound (pfSub wm_max
      (dblRound (pfMul wm_range (dblRound (pfDiv (dblRound (pfSub v gm_min)) gm_range)))))))
  else pf (pyInt background)

def smart_voxel_flip (wm_min wm_max gm_min gm_max : PyF) (g : Grid) : Grid :=
  g.map fun pl => pl.map fun row => row.map (flip_voxel wm_min wm_max gm_min gm_max)

/-- Claim-side voxel map of the ContrastInverter, written with the spec's
own association of the ramp formulas; compared against flip_voxel. -/
def invert_spec_voxel (wm_min wm_max gm_min gm_max : PyF) (v : PyF) : PyF :=
  if pfLe wm_min v ∧ pfLt v wm_max then
    pf (pyInt (pfAdd gm_min (pfDiv (pfMul (pfSub gm_max gm_min) (pfSub wm_max v)) (pfSub wm_max wm_min))))
  else if pfLe gm_min v ∧ pfLt v gm_max then
    pf (pyInt (pfSub wm_max (pfDiv (pfMul (pfSub wm_max wm_min) (pfSub v gm_min)) (pfSub gm_max gm_min))))
  else background

/-- Boolean check behind the exhaustive part of claim C3: at integer voxel
value 300 + k with the claim's bands (wm = [300, 1700), gm = [1700, 3000)),
the program's float evaluation and the claim's exact formula land within 1
of each other. -/
def c3ok (k : ℕ) : Bool :=
  ((flip_voxel (pf 300) (pf 1700) (pf 1700) (pf 3000) (pf (300 + (k : ℤ)))).num -
   (invert_spec_voxel (pf 300) (pf 1700) (pf 1700) (pf 3000) (pf (300 + (k : ℤ)))).num).natAbs ≤ 1

/-- Boolean check behind the exhaustive part of claim C8: at integer voxel
value 501 + k, the double flip with swapped bands lands within 1 of the
original value. -/
def c8ok (k : ℕ) : Bool :=
  ((flip_voxel (pf 1700) (pf 3000) (pf 500) (pf 1700)
      (flip_voxel (pf 500) (pf 1700) (pf 1700) (pf 3000) (pf (501 + (k : ℤ))))).num -
   (501 + (k : ℤ))).natAbs ≤ 1

/-
  find_peak_diff (PostmortemMRIConvert.py lines 322-341): histogram of
  the supplied voxels with bin width 5 over [0, 10000); int(v/5 - 0)
  selects the bin; out-of-range positive bins raise IndexError and are
  skipped by the try, while bins in [-2000, -1] wrap around; the mode
  scan runs over bins 1..1999 (excluding bin 0), keeping the first
  maximum; the result is mode - norm_intens.
-/
def effBin (v : PyF) : Option ℕ :=
  let i := pyInt (pfSub (pfDiv v (pf 5)) (pf 0))
  if 0 ≤ i ∧ i < 2000 then some i.toNat
  else if -2000 ≤ i ∧ i < 0 then some (2000 + i).toNat
  else none

def binCount (l : List PyF) (j : ℕ) : ℕ := (l.filterMap effBin).count j

def find_peak_diff (img_raw : List PyF) : ℤ :=
  let scan := (List.range 1999).map fun k => 5 * (k + 1)
  let m := scan.foldl (fun st b =>
    if binCount img_raw (b / 5) > st.1 then (binCount img_raw (b / 5), b) else st)
    ((0 : ℕ), (0 : ℕ))
  (m.2 : ℤ) - norm_intens

/-- The img_raw list built by image_normalization: all voxels strictly
above background, in loop order. -/
def collect_pos (g : Grid) : List PyF :=
  (g.map fun pl => (pl.map fun row =>
    row.filter fun v => decide (pfLt background v)).flatten).flatten

/-
  image_normalization (PostmortemMRIConvert.py lines 344-369): subtracts
  the peak difference from every voxel strictly greater than 0.
-/
def image_normalization (g : Grid) : Grid :=
  let pd := find_peak_diff (collect_pos g)
  g.map fun pl => pl.map fun row => row.map fun v =>
    if pfLt (pf 0) v then pfSub v (pf pd) else v

/-- List of all (axial, sagittal, coronal) index triples of the grid, in
the order of the standard triple loop. -/
def allIdx (g : Grid) : List (ℕ × ℕ × ℕ) :=
  (List.range g.length).flatMap fun a =>
    (List.range ((g.getD a []).length)).flatMap fun s =>
      (List.range (((g.getD a []).getD s []).length)).map fun c => (a, s, c)

/-
  pixel_cleanup (PostmortemMRIConvert.py lines 652-681): for every voxel
  above background it sums the blur box of neighbors WITHOUT a
  try/except, so an out-of-bounds read above the end raises (modeled by
  none); the sums are never written back, so on success the grid is
  returned unchanged.
-/
def pixel_cleanup (img_zoom : PyF × PyF × PyF) (g : Grid) : Option Grid :=
  let ba := pyInt (pfDiv (pfDiv blur_range (pf 2)) img_zoom.1)
  let bs := pyInt (pfDiv (pfDiv blur_range (pf 2)) img_zoom.2.1)
  let bc := pyInt (pfDiv blur_range img_zoom.2.2)
  ((allIdx g).foldl (fun st p =>
    let v := cellAt g p.1 p.2.1 p.2.2
    if pfLt background v then
      (intRange ((p.1 : ℤ) - ba) ((p.1 : ℤ) + ba + 1)).foldl (fun st1 al =>
        (intRange ((p.2.1 : ℤ) - bs) ((p.2.1 : ℤ) + bs + 1)).foldl (fun st2 sl =>
          (intRange ((p.2.2 : ℤ) - bc) ((p.2.2 : ℤ) + bc + 1)).foldl (fun st3 cl =>
            st3.bind fun su => (pyGet3 g al sl cl).map fun w => pfAdd su w) st2) st1) st
    else st) (some (pf 0))).map fun _ => g

/-
  row_search (PostmortemMRIConvert.py lines 396-415): scans a row
  forward counting voxels above gm_min until the count reaches the
  threshold t = mask_dist / img_zoom[axis], recording the index; then
  REVERSES THE ROW IN PLACE and repeats, recording len - index.  The
  Python trackers start as False; an assigned index 0 is itself falsy,
  which is modeled by using 0 as the not-found value (indistinguishable
  from False under Python truthiness in all uses).
-/
def rs_step (gm_min t : PyF) (st : ℕ × ℕ × ℕ) (v : PyF) : ℕ × ℕ × ℕ :=
  let idx := st.1
  let track := st.2.1
  let start := st.2.2
  let track1 := if start = 0 ∧ pfLt gm_min v then track + 1 else track
  let start1 := if start = 0 ∧ pfLe t (pf (track1 : ℤ)) then idx else start
  (idx + 1, track1, start1)

def rs_stop_step (len : ℕ) (gm_min t : PyF) (st : ℕ × ℕ × ℕ) (v : PyF) : ℕ × ℕ × ℕ :=
  let idx := st.1
  let track := st.2.1
  let stop := st.2.2
  let track1 := if stop = 0 ∧ pfLt gm_min v then track + 1 else track
  let stop1 := if stop = 0 ∧ pfLe t (pf (track1 : ℤ)) then len - idx else stop
  (idx + 1, track1, stop1)

def row_search (gm_min t : PyF) (row : Row) : ℕ × ℕ :=
  ((row.foldl (rs_step gm_min t) (0, 0, 0)).2.2,
   (row.reverse.foldl (rs_stop_step row.length gm_min t) (0, 0, 0)).2.2)

def make_copy (g : Grid) : Grid :=
  g.map fun pl => pl.map fun row => row.map fun v => pf (pyInt v)

/-
  brain_mask_cor (PostmortemMRIConvert.py lines 418-436): the coronal
  pass.  It hands the mask's own row to row_search, so THE ROW IT STORES
  BACK IS THE REVERSED ROW, with mask_set written at the indices strictly
  between the returned bounds (both truthy).
-/
def brain_mask_cor (gm_min t : PyF) (msk : Grid) : Grid :=
  msk.map fun pl => pl.map fun row =>
    let rs := row_search gm_min t row
    if rs.1 ≠ 0 ∧ rs.2 ≠ 0 then
      mapIdxF (fun c v => if rs.1 < c ∧ c < rs.2 then mask_set else v) 0 row.reverse
    else row.reverse

/-- Row of data values over the sagittal index at fixed (axial, coronal)
position, as built by brain_mask_ax's cor_grid. -/
def sag_row_at (data : Grid) (a c : ℕ) : Row :=
  (List.range ((data.getD 0 []).length)).map fun s => cellAt data a s c

/-- Row of data values over the axial index at fixed (sagittal, coronal)
position, as built by brain_mask_sag's cor_grid. -/
def ax_row_at (data : Grid) (s c : ℕ) : Row :=
  (List.range data.length).map fun a => cellAt data a s c

/-
  brain_mask_ax (PostmortemMRIConvert.py lines 439-466): for each
  coronal slice, scans the rows over the sagittal index of a freshly
  copied view of data; where truthy bounds are found, cells strictly
  inside that already hold mask_set are kept, every other cell of the
  row is overwritten with the data value; rows without truthy bounds are
  left untouched.  Each mask cell is read and written at most once and
  all row scans read only the unmodified data, so the loop is embedded
  cell-pointwise.
-/
def brain_mask_ax (gm_min t : PyF) (data msk : Grid) : Grid :=
  mapIdxF (fun a pl => mapIdxF (fun s row => mapIdxF (fun c v =>
    let rs := row_search gm_min t (sag_row_at data a c)
    if rs.1 ≠ 0 ∧ rs.2 ≠ 0 then
      if rs.1 < s ∧ s < rs.2 ∧ pfEq v mask_set then v
      else cellAt data a s c
    else v) 0 row) 0 pl) 0 msk

/-
  brain_mask_sag (PostmortemMRIConvert.py lines 469-494): same as
  brain_mask_ax with rows over the axial index.
-/
def brain_mask_sag (gm_min t : PyF) (data msk : Grid) : Grid :=
  mapIdxF (fun a pl => mapIdxF (fun s row => mapIdxF (fun c v =>
    let rs := row_search gm_min t (ax_row_at data s c)
    if rs.1 ≠ 0 ∧ rs.2 ≠ 0 then
      if rs.1 < a ∧ a < rs.2 ∧ pfEq v mask_set then v
      else cellAt data a s c
    else v) 0 row) 0 pl) 0 msk

/-- The three-pass BrainMaskBuilder: coronal pass (threshold from axis 2
zoom), then axial pass (axis 0), then sagittal pass (axis 1), starting
from a copy of the data. -/
def build_mask (gm_min t0 t1 t2 : PyF) (data : Grid) : Grid :=
  brain_mask_sag gm_min t1 data (brain_mask_ax gm_min t0 data (brain_mask_cor gm_min t2 (make_copy data)))

/-- One full run of the mask builder together with the data grid as the
run leaves it: the passes reverse rows of the mask (pass 1) and of fresh
per-slice copies (passes 2 and 3), but never write the data grid. -/
def build_mask_run (gm_min t0 t1 t2 : PyF) (data : Grid) : Grid × Grid :=
  let m1 := brain_mask_cor gm_min t2 (make_copy data)
  let m2 := brain_mask_ax gm_min t0 data m1
  let m3 := brain_mask_sag gm_min t1 data m2
  (m3, data)

/-- Claim-side predicate of C1: the cell index lies strictly between
truthy (start, stop) interior bounds of the row scans along all three
axes of the data grid. -/
def three_axis_interior (gm_min t0 t1 t2 : PyF) (data : Grid) (a s c : ℕ) : Prop :=
  (let rs := row_search gm_min t2 ((data.getD a []).getD s [])
   rs.1 ≠ 0 ∧ rs.2 ≠ 0 ∧ rs.1 < c ∧ c < rs.2) ∧
  (let rs := row_search gm_min t0 (sag_row_at data a c)
   rs.1 ≠ 0 ∧ rs.2 ≠ 0 ∧ rs.1 < s ∧ s < rs.2) ∧
  (let rs := row_search gm_min t1 (ax_row_at data s c)
   rs.1 ≠ 0 ∧ rs.2 ≠ 0 ∧ rs.1 < a ∧ a < rs.2)

instance (gm_min t0 t1 t2 : PyF) (data : Grid) (a s c : ℕ) :
    Decidable (three_axis_interior gm_min t0 t1 t2 data a s c) := by
  unfold three_axis_interior; infer_instance

/-
  rind_vox_calc (PostmortemMRIConvert.py lines 519-543): averages the
  neighbors in the blur box whose value exceeds gm_min and that either
  are mask-protected at the center or lie strictly below gm_max;
  lookups that raise are skipped; returns None when the total is zero.
-/
def rind_vox_calc (data msk : Grid) (gm_min gm_max : PyF) (a : ℕ) (rba : ℤ)
    (s : ℕ) (rbs : ℤ) (c : ℕ) (rbc : ℤ) : Option ℤ :=
  let st := (intRange ((a : ℤ) - rba) ((a : ℤ) + rba + 1)).foldl (fun st1 al =>
    (intRange ((s : ℤ) - rbs) ((s : ℤ) + rbs + 1)).foldl (fun st2 sl =>
      (intRange ((c : ℤ) - rbc) ((c : ℤ) + rbc + 1)).foldl (fun st3 cl =>
        match pyGet3 data al sl cl with
        | none => st3
        | some vi =>
          if pfLt gm_min vi then
            match pyGet3 msk (a : ℤ) (s : ℤ) (c : ℤ) with
            | none => st3
            | some m =>
              if pfEq m mask_set then (pfAdd st3.1 vi, st3.2 + 1)
              else if pfLt vi gm_max then (pfAdd st3.1 vi, st3.2 + 1)
              else st3
          else st3) st2) st1) (pf 0, (0 : ℕ))
  if ¬ pfEq st.1 (pf 0) then some (pyInt (pfDiv st.1 (pf (st.2 : ℤ)))) else none

/-- Fallback replacement intensity gm_min + (gm_max - gm_min) * .20 of
remove_rind. -/
def rr_fallback (gm_min gm_max : PyF) : PyF :=
  pfAdd gm_min (pfMul (pfSub gm_max gm_min) ⟨2, 10⟩)

/-
  First pass of remove_rind (PostmortemMRIConvert.py lines 569-592): a
  voxel brighter than wm_min * .90 whose boundary load reaches
  rind_cutoff gets the neighbor average (or the fallback when that is
  falsy) written into the img_chg copy, and is recorded for the second
  pass when it is not mask-protected.
-/
def remove_rind_step (data msk : Grid) (wm_min gm_min gm_max : PyF)
    (rda rds rdc rba rbs rbc : ℤ) (rind_cutoff : ℕ)
    (st : Grid × List (ℕ × ℕ × ℕ)) (p : ℕ × ℕ × ℕ) : Grid × List (ℕ × ℕ × ℕ) :=
  let v := cellAt data p.1 p.2.1 p.2.2
  if pfLt (pfMul wm_min ⟨9, 10⟩) v then
    if rind_cutoff ≤ bound_check data (p.1 : ℤ) rda (p.2.1 : ℤ) rds (p.2.2 : ℤ) rdc then
      let vv := rind_vox_calc data msk gm_min gm_max p.1 rba p.2.1 rbs p.2.2 rbc
      let newv := match vv with
        | some x => if x ≠ 0 then pf x else rr_fallback gm_min gm_max
        | none => rr_fallback gm_min gm_max
      (setCell st.1 p.1 p.2.1 p.2.2 newv,
       if ¬ pfEq (cellAt msk p.1 p.2.1 p.2.2) mask_set then st.2 ++ [p] else st.2)
    else st
  else st

/-- Sum of the pre-inversion differences to the neighbors above
background in the blur box, together with their count (each failing
lookup is skipped whole). -/
def reblend_box (pre_flip : Grid) (rba rbs rbc : ℤ) (p : ℕ × ℕ × ℕ) : PyF × ℕ :=
  (intRange ((p.1 : ℤ) - rba) ((p.1 : ℤ) + rba + 1)).foldl (fun st1 al =>
    (intRange ((p.2.1 : ℤ) - rbs) ((p.2.1 : ℤ) + rbs + 1)).foldl (fun st2 sl =>
      (intRange ((p.2.2 : ℤ) - rbc) ((p.2.2 : ℤ) + rbc + 1)).foldl (fun st3 cl =>
        match pyGet3 pre_flip al sl cl, pyGet3 pre_flip (p.1 : ℤ) (p.2.1 : ℤ) (p.2.2 : ℤ) with
        | some x, some ctr =>
          if pfLt background x then (pfAdd st3.1 (pfSub x ctr), st3.2 + 1) else st3
        | _, _ => st3) st2) st1) (pf 0, 0)

/-- Python 2 floor division of the integer-valued difference sum by the
decremented count (Int.fdiv is floor division like Python 2 int /). -/
def pf_floordiv (x : PyF) (m : ℤ) : ℤ := Int.fdiv x.num ((x.den : ℤ) * m)

/-
  Second, cosmetic pass of remove_rind (lines 600-617): each recorded
  rind voxel is nudged by 40 percent of the average pre-inversion
  difference, the count decremented by one to drop the self-count; a
  decremented count of zero raises ZeroDivisionError (none).
-/
def reblend_step (pre_flip : Grid) (rba rbs rbc : ℤ) (och : Option Grid)
    (p : ℕ × ℕ × ℕ) : Option Grid :=
  och.bind fun ch =>
    let bx := reblend_box pre_flip rba rbs rbc p
    let addm : ℤ := (bx.2 : ℤ) - 1
    if addm = 0 then none
    else some (setCell ch p.1 p.2.1 p.2.2
      (pfSub (cellAt ch p.1 p.2.1 p.2.2) (pfMul (pf (pf_floordiv bx.1 addm)) ⟨4, 10⟩)))

/-
  remove_rind (PostmortemMRIConvert.py lines 546-621): boundary radii
  from (rind_thickness + rind_explore) / zoom, blur radii from
  blur_range / zoom, then the candidate pass into a fresh copy followed
  by the cosmetic re-blend of the recorded outer rind voxels.
-/
def remove_rind (img_zoom : PyF × PyF × PyF) (pre_flip : Grid)
    (gm_min gm_max wm_min wm_max : PyF) (msk : Grid)
    (rind_thickness rind_explore : PyF) (rind_cutoff : ℕ) (data : Grid) : Option Grid :=
  let rda := pyInt (pfDiv (pfAdd rind_thickness rind_explore) img_zoom.1)
  let rds := pyInt (pfDiv (pfAdd rind_thickness rind_explore) img_zoom.2.1)
  let rdc := pyInt (pfDiv (pfAdd rind_thickness rind_explore) img_zoom.2.2)
  let rba := pyInt (pfDiv blur_range img_zoom.1)
  let rbs := pyInt (pfDiv blur_range img_zoom.2.1)
  let rbc := pyInt (pfDiv blur_range img_zoom.2.2)
  let fp := (allIdx data).foldl
    (remove_rind_step data msk wm_min gm_min gm_max rda rds rdc rba rbs rbc rind_cutoff)
    (make_copy data, [])
  fp.2.foldl (reblend_step pre_flip rba rbs rbc) (some fp.1)

/-
  slice_normalization, representative-intensity part
  (PostmortemMRIConvert.py lines 285-304): for each coronal section the
  voxels above wm_min are collected; with more than norm_intens_pt of
  them the section's representative intensity is the sorted list's
  entry at index -norm_intens_pt from the end, otherwise gm_max.
-/
def cor_list (wm_min : PyF) (data : Grid) (c : ℕ) : List PyF :=
  (List.range data.length).flatMap fun a =>
    (List.range ((data.getD a []).length)).filterMap fun s =>
      let v := cellAt data a s c
      if pfLt wm_min v then some v else none

def section_rep (wm_min gm_max : PyF) (norm_pt : ℕ) (cl : List PyF) : PyF :=
  if cl ≠ [] ∧ norm_pt < cl.length then
    (pyGet (cl.mergeSort fun x y => decide (pfLe x y)) (-(norm_pt : ℤ))).getD (pf 0)
  else gm_max

def all_intensity_list (wm_min gm_max : PyF) (norm_pt : ℕ) (data : Grid) : List PyF :=
  (List.range (((data.getD 0 []).getD 0 []).length)).map fun c =>
    section_rep wm_min gm_max norm_pt (cor_list wm_min data c)

/-
  NiftiMirror.py module flags, as configured in the source.
-/
def make_left_mirror : Bool := false

def make_right_mirror : Bool := true

def check_orient : Bool := false

def mirror_line : ℤ := 0

def move_size : ℤ := -137

/-- One voxel of the mirror loop body (NiftiMirror.py lines 113-128),
reading from the supplied plane state; a failing lookup keeps the old
value (try/except). -/
def mirror_cell (pl0 : Plane) (m : ℤ) (s c : ℕ) (v : PyF) : PyF :=
  if make_left_mirror ∧ (s : ℤ) < m then
    match (pyGet pl0 (m + (m - (s : ℤ)))).bind fun r => pyGet r (c : ℤ) with
    | some x => x
    | none => v
  else if make_right_mirror ∧ m < (s : ℤ) then
    match (pyGet pl0 (m - ((s : ℤ) - m))).bind fun r => pyGet r (c : ℤ) with
    | some x => x
    | none => v
  else if check_orient ∧ m < (s : ℤ) then pf 0
  else v

/-
  mirror_data (NiftiMirror.py lines 109-129) mutates img_data in place;
  all reads of an axial plane's loop stay within that plane, so the
  outer loop factorizes into one in-place pass per plane; within a
  plane the rows are rewritten in ascending sagittal order, each row
  built from the current plane state.
-/
def plane_mirror_inplace (m : ℤ) (pl : Plane) : Plane :=
  (List.range pl.length).foldl (fun pcur s =>
    pcur.set s (mapIdxF (fun c v => mirror_cell pcur m s c v) 0 (pcur.getD s []))) pl

def mirror_point (g : Grid) : ℤ :=
  ((((g.getD 0 []).length) / 2 : ℕ) : ℤ) + mirror_line

def mirror_data (g : Grid) : Grid :=
  g.map fun pl => plane_mirror_inplace (mirror_point g) pl

/-- Claim-side reference version of mirror_data: it snapshots the grid
and reads only the immutable snapshot while writing the output. -/
def mirror_data_snap (g : Grid) : Grid :=
  g.map fun pl => mapIdxF (fun s row => mapIdxF (fun c v =>
    mirror_cell pl (mirror_point g) s c v) 0 row) 0 pl

/-
  move_image (NiftiMirror.py lines 85-94): copies the grid with
  make_copy, then overwrites every voxel with the copy's value at the
  sagittal index shifted by move_size, keeping the old value when the
  lookup raises.
-/
def move_image (g : Grid) : Grid :=
  let cp := make_copy g
  mapIdxF (fun a pl => mapIdxF (fun s row => mapIdxF (fun c v =>
    match (pyGet cp (a : ℤ)).bind (fun p =>
        (pyGet p ((s : ℤ) - move_size)).bind fun r => pyGet r (c : ℤ)) with
    | some x => x
    | none => v) 0 row) 0 pl) 0 g

/-- Claim-side reference version of move_image: reads an identity
snapshot of the grid (no int() re-coercion) while writing the output. -/
def move_image_snap (g : Grid) : Grid :=
  mapIdxF (fun a pl => mapIdxF (fun s row => mapIdxF (fun c v =>
    match (pyGet g (a : ℤ)).bind (fun p =>
        (pyGet p ((s : ℤ) - move_size)).bind fun r => pyGet r (c : ℤ)) with
    | some x => x
    | none => v) 0 row) 0 pl) 0 g

/-
  General helper lemmas.
-/

theorem foldl_fixed {α β : Type} (f : β → α → β) (l : List α) (b : β)
    (h : ∀ st, ∀ x ∈ l, f st x = st) : l.foldl f b = b := by
  induction l generalizing b with
  | nil => rfl
  | cons x xs ih =>
    simp only [List.foldl_cons]
    rw [h b x (List.mem_cons_self x xs)]
    exact ih b fun st y hy => h st y (List.mem_cons_of_mem x hy)

theorem pyGet_singleton {α : Type} (x : α) (i : ℤ) :
    pyGet [x] i = none ∨ pyGet [x] i = some x := by
  unfold pyGet
  split_ifs with h1 h2
  · rcases Nat.eq_zero_or_pos i.toNat with h | h
    · right; simp [h]
    · left; simp [List.getElem?_eq_none_iff]; omega
  · right
    have : (1 : ℕ) - (-i).toNat = 0 := by omega
    simp [this]
  · left; rfl

theorem pyGet3_singleton (v : PyF) (al sl cl : ℤ) :
    pyGet3 [[[v]]] al sl cl = none ∨ pyGet3 [[[v]]] al sl cl = some v := by
  unfold pyGet3
  rcases pyGet_singleton ([[v]] : Plane) al with h1 | h1
  · left; rw [h1]; rfl
  · rw [h1, Option.some_bind]
    rcases pyGet_singleton ([v] : Row) sl with h2 | h2
    · left; rw [h2]; rfl
    · rw [h2, Option.some_bind]
      rcases pyGet_singleton v cl with h3 | h3
      · left; exact h3
      · right; exact h3

theorem cellAt?_map3 (f : PyF → PyF) (g : Grid) (a s c : ℕ) :
    cellAt? (g.map fun pl => pl.map fun row => row.map f) a s c =
      (cellAt? g a s c).map f := by
  unfold cellAt?
  rw [List.getElem?_map]
  cases g[a]? with
  | none => rfl
  | some pl =>
    simp only [Option.map_some', Option.some_bind]
    rw [List.getElem?_map]
    cases pl[s]? with
    | none => rfl
    | some row =>
      simp only [Option.map_some', Option.some_bind]
      simp [List.getElem?_map]

theorem mapIdxF_getElem? {α β : Type} (f : ℕ → α → β) (i : ℕ) (l : List α) (j : ℕ) :
    (mapIdxF f i l)[j]? = (l[j]?).map (f (i + j)) := by
  induction l generalizing i j with
  | nil => simp [mapIdxF]
  | cons x xs ih =>
    cases j with
    | zero => simp [mapIdxF]
    | succ j =>
      simp only [mapIdxF, List.getElem?_cons_succ, ih (i + 1) j]
      have : i + 1 + j = i + (j + 1) := by omega
      rw [this]

theorem mapIdxF_length {α β : Type} (f : ℕ → α → β) (i : ℕ) (l : List α) :
    (mapIdxF f i l).length = l.length := by
  induction l generalizing i with
  | nil => rfl
  | cons x xs ih => simp [mapIdxF, ih]

theorem mapIdxF_congr_id {α : Type} (f : ℕ → α → α) (i : ℕ) (l : List α)
    (h : ∀ j x, f j x = x) : mapIdxF f i l = l := by
  induction l generalizing i with
  | nil => rfl
  | cons x xs ih => simp [mapIdxF, h, ih]

theorem pf_le_pf (x y : ℤ) : pfLe (pf x) (pf y) ↔ x ≤ y := by
  simp [pfLe, pf]

theorem pf_lt_pf (x y : ℤ) : pfLt (pf x) (pf y) ↔ x < y := by
  simp [pfLt, pf]

theorem pyInt_pf (n : ℤ) : pyInt (pf n) = n := by
  simp [pyInt, pf, Int.tdiv_one]

theorem map_id_of_mem {α : Type} (l : List α) (f : α → α) (h : ∀ x ∈ l, f x = x) :
    l.map f = l := by
  induction l with
  | nil => rfl
  | cons x xs ih =>
    simp only [List.map_cons, h x (List.mem_cons_self x xs)]
    rw [ih fun y hy => h y (List.mem_cons_of_mem x hy)]

theorem make_copy_eq_self (g : Grid) (h : IntGrid g) : make_copy g = g := by
  unfold make_copy
  apply map_id_of_mem
  intro pl hpl
  apply map_id_of_mem
  intro row hrow
  apply map_id_of_mem
  intro v hv
  obtain ⟨n, hn⟩ : ∃ n : ℤ, v = pf n := by
    refine ⟨v.num, ?_⟩
    have hden := h pl hpl row hrow v hv
    cases v with
    | mk n d => simp only [pf]; simp only at hden; rw [hden]
  rw [hn, pyInt_pf]

/-
  CLAIM C2.
-/

/-- Grid exhibiting Python's negative-index wraparound in the windowed
scans: three axial planes of one voxel each. -/
def iso_wrap_grid : Grid := [[[pf 5]], [[pf 5]], [[pf 0]]]

/-- C2 counterexample: on iso_wrap_grid, the 26-neighbor scan around the
corner voxel (0,0,0) counts 4 background matches, all coming from
neighbor positions at negative axial offset, i.e. outside the grid
bounds; the claim-side scan that treats every out-of-bounds position as
absent counts 0.  So an out-of-bounds neighbor position can count as a
background match, contradicting the claim. -/
theorem C2_counterexample :
    iso_px_check iso_wrap_grid 0 0 0 = 4 ∧
    iso_px_check_spec iso_wrap_grid 0 0 0 = 0 := by
  constructor <;> decide

/-- C2 amended: a neighbor index at or beyond a list's length raises
IndexError and is skipped, never counting; but a negative index of
magnitude at most the length wraps around to the far end of the list
and its value does count; no windowed scan raises an uncaught error;
on a 1x1x1 grid the scans complete, and a single voxel that is not
background is classified exactly like a voxel with zero valid
neighbors: its isolated-pixel count and boundary load are both 0. -/
theorem C2_oob_neighbors :
    (∀ (l : List PyF) (i : ℤ), (l.length : ℤ) ≤ i → pyGet l i = none) ∧
    (∀ (l : List PyF) (k : ℕ), 0 < k → k ≤ l.length →
      pyGet l (-(k : ℤ)) = l[l.length - k]?) ∧
    (∀ v : PyF, ¬ pfEq v background → iso_px_check [[[v]]] 0 0 0 = 0) ∧
    (∀ (ra rs rc : ℤ) (v : PyF), ¬ pfEq v background →
      bound_check [[[v]]] 0 ra 0 rs 0 rc = 0) := by
  refine ⟨?_, ?_, ?_, ?_⟩
  · intro l i h
    unfold pyGet
    have h0 : 0 ≤ i := le_trans (by positivity) h
    rw [if_pos h0]
    rw [List.getElem?_eq_none_iff]
    omega
  · intro l k hk hkl
    unfold pyGet
    rw [if_neg (by omega), if_pos (by omega)]
    congr 1
    omega
  · intro v hv
    unfold iso_px_check
    apply foldl_fixed
    intro n1 al _
    apply foldl_fixed
    intro n2 sl _
    apply foldl_fixed
    intro n3 cl _
    rcases pyGet3_singleton v al sl cl with h | h <;> simp [h, hv]
  · intro ra rs rc v hv
    unfold bound_check
    apply foldl_fixed
    intro n1 al _
    apply foldl_fixed
    intro n2 sl _
    apply foldl_fixed
    intro n3 cl _
    rcases pyGet3_singleton v al sl cl with h | h <;> simp [h, hv]

/-- Witness for C2_oob_neighbors at concrete inputs. -/
theorem C2_oob_neighbors_witness :
    pyGet ([pf 1, pf 2] : List PyF) 2 = none ∧
    pyGet ([pf 1, pf 2] : List PyF) (-(1 : ℤ)) = some (pf 2) ∧
    iso_px_check [[[pf 5]]] 0 0 0 = 0 ∧
    bound_check [[[pf 5]]] 0 2 0 2 0 2 = 0 := by
  refine ⟨C2_oob_neighbors.1 [pf 1, pf 2] 2 (by decide), ?_, ?_, ?_⟩
  · have h := C2_oob_neighbors.2.1 [pf 1, pf 2] 1 (by decide) (by decide)
    simpa using h
  · exact C2_oob_neighbors.2.2.1 (pf 5) (by decide)
  · exact C2_oob_neighbors.2.2.2 2 2 2 (pf 5) (by decide)

/-
  CLAIM C3.
-/

theorem chunk_all (f : ℕ → Bool) (off len : ℕ)
    (h : ((List.range len).all fun k => f (off + k)) = true)
    (j : ℕ) (h1 : off ≤ j) (h2 : j < off + len) : f j = true := by
  have h3 := List.all_eq_true.mp h (j - off) (List.mem_range.mpr (by omega))
  have h4 : f (off + (j - off)) = true := h3
  have h5 : off + (j - off) = j := by omega
  rwa [h5] at h4

set_option maxHeartbeats 2000000 in
theorem c3chunk0 : ((List.range 270).all fun k => c3ok (0 + k)) = true := by decide

set_option maxHeartbeats 2000000 in
theorem c3chunk1 : ((List.range 270).all fun k => c3ok (270 + k)) = true := by decide

set_option maxHeartbeats 2000000 in
theorem c3chunk2 : ((List.range 270).all fun k => c3ok (540 + k)) = true := by decide

set_option maxHeartbeats 2000000 in
theorem c3chunk3 : ((List.range 270).all fun k => c3ok (810 + k)) = true := by decide

set_option maxHeartbeats 2000000 in
theorem c3chunk4 : ((List.range 270).all fun k => c3ok (1080 + k)) = true := by decide

set_option maxHeartbeats 2000000 in
theorem c3chunk5 : ((List.range 270).all fun k => c3ok (1350 + k)) = true := by decide

set_option maxHeartbeats 2000000 in
theorem c3chunk6 : ((List.range 270).all fun k => c3ok (1620 + k)) = true := by decide

set_option maxHeartbeats 2000000 in
theorem c3chunk7 : ((List.range 270).all fun k => c3ok (1890 + k)) = true := by decide

set_option maxHeartbeats 2000000 in
theorem c3chunk8 : ((List.range 270).all fun k => c3ok (2160 + k)) = true := by decide

set_option maxHeartbeats 2000000 in
theorem c3chunk9 : ((List.range 270).all fun k => c3ok (2430 + k)) = true := by decide

theorem c3all (j : ℕ) (hj : j < 2700) : c3ok j = true := by
  by_cases h0 : j < 270
  · exact chunk_all c3ok 0 270 c3chunk0 j (by omega) (by omega)
  by_cases h1 : j < 540
  · exact chunk_all c3ok 270 270 c3chunk1 j (by omega) (by omega)
  by_cases h2 : j < 810
  · exact chunk_all c3ok 540 270 c3chunk2 j (by omega) (by omega)
  by_cases h3 : j < 1080
  · exact chunk_all c3ok 810 270 c3chunk3 j (by omega) (by omega)
  by_cases h4 : j < 1350
  · exact chunk_all c3ok 1080 270 c3chunk4 j (by omega) (by omega)
  by_cases h5 : j < 1620
  · exact chunk_all c3ok 1350 270 c3chunk5 j (by omega) (by omega)
  by_cases h6 : j < 1890
  · exact chunk_all c3ok 1620 270 c3chunk6 j (by omega) (by omega)
  by_cases h7 : j < 2160
  · exact chunk_all c3ok 1890 270 c3chunk7 j (by omega) (by omega)
  by_cases h8 : j < 2430
  · exact chunk_all c3ok 2160 270 c3chunk8 j (by omega) (by omega)
  exact chunk_all c3ok 2430 270 c3chunk9 j (by omega) (by omega)

/-- C3 counterexample: with the claim's own bands (wm = [300, 1700),
gm = [1700, 3000)), the program's IEEE-double evaluation maps voxel 2415
to int(929.9999999999999) = 929, while the claim's formula gives exactly
1700 - 1400*715/1300 = 930; so the inverter does not map every voxel
exactly by the claim's piecewise formula. -/
theorem C3_counterexample :
    flip_voxel (pf 300) (pf 1700) (pf 1700) (pf 3000) (pf 2415) = pf 929 ∧
    invert_spec_voxel (pf 300) (pf 1700) (pf 1700) (pf 3000) (pf 2415) = pf 930 := by
  constructor <;> decide

/-- C3 amended: the ContrastInverter applies flip_voxel to every cell of
the grid; every voxel failing both band tests goes exactly to background;
with the claim's bands (wm = [300, 1700), gm = [1700, 3000)) every integer
voxel in [300, 3000) lands within 1 of the claim's exact piecewise formula
(the float rounding moves a handful of values, 2415 among them, one below
it); and a voxel of value 2000 maps to 1376, within 1 of the claimed
approximately 1377. -/
theorem C3_contrast_inverter :
    (∀ (wmn wmx gmn gmx : PyF) (g : Grid) (a s c : ℕ) (v : PyF),
      cellAt? g a s c = some v →
      cellAt? (smart_voxel_flip wmn wmx gmn gmx g) a s c =
        some (flip_voxel wmn wmx gmn gmx v)) ∧
    (∀ (wmn wmx gmn gmx : PyF) (v : PyF),
      ¬ (pfLe wmn v ∧ pfLt v wmx) → ¬ (pfLe gmn v ∧ pfLt v gmx) →
      flip_voxel wmn wmx gmn gmx v = background) ∧
    (∀ v : ℤ, 300 ≤ v → v < 3000 →
      |(flip_voxel (pf 300) (pf 1700) (pf 1700) (pf 3000) (pf v)).num -
       (invert_spec_voxel (pf 300) (pf 1700) (pf 1700) (pf 3000) (pf v)).num| ≤ 1) ∧
    flip_voxel (pf 300) (pf 1700) (pf 1700) (pf 3000) (pf 2000) = pf 1376 ∧
    |(flip_voxel (pf 300) (pf 1700) (pf 1700) (pf 3000) (pf 2000)).num - 1377| ≤ 1 := by
  refine ⟨?_, ?_, ?_, by decide, by decide⟩
  · intro wmn wmx gmn gmx g a s c v hv
    unfold smart_voxel_flip
    rw [cellAt?_map3, hv, Option.map_some']
  · intro wmn wmx gmn gmx v hw hg
    unfold flip_voxel
    dsimp only
    rw [if_neg hw, if_neg hg]
    decide
  · intro v h1 h2
    have hk : (v - 300).toNat < 2700 := by omega
    have h := c3all ((v - 300).toNat) hk
    unfold c3ok at h
    have hv : (300 : ℤ) + ((v - 300).toNat : ℤ) = v := by omega
    rw [hv] at h
    have h' := of_decide_eq_true h
    rw [abs_le]
    omega

/-- Witness for C3_contrast_inverter, discharging the hypotheses of its
within-1 conjunct at v = 2000. -/
theorem C3_contrast_inverter_witness :
    (300 : ℤ) ≤ 2000 ∧ (2000 : ℤ) < 3000 ∧
    |(flip_voxel (pf 300) (pf 1700) (pf 1700) (pf 3000) (pf 2000)).num -
     (invert_spec_voxel (pf 300) (pf 1700) (pf 1700) (pf 3000) (pf 2000)).num| ≤ 1 :=
  ⟨by norm_num, by norm_num, C3_contrast_inverter.2.2.1 2000 (by norm_num) (by norm_num)⟩

/-
  CLAIM C8.
-/

set_option maxHeartbeats 2000000 in
theorem c8chunk0 : ((List.range 250).all fun k => c8ok (0 + k)) = true := by decide

set_option maxHeartbeats 2000000 in
theorem c8chunk1 : ((List.range 250).all fun k => c8ok (250 + k)) = true := by decide

set_option maxHeartbeats 2000000 in
theorem c8chunk2 : ((List.range 250).all fun k => c8ok (500 + k)) = true := by decide

set_option maxHeartbeats 2000000 in
theorem c8chunk3 : ((List.range 250).all fun k => c8ok (750 + k)) = true := by decide

set_option maxHeartbeats 2000000 in
theorem c8chunk4 : ((List.range 250).all fun k => c8ok (1000 + k)) = true := by decide

set_option maxHeartbeats 2000000 in
theorem c8chunk5 : ((List.range 250).all fun k => c8ok (1250 + k)) = true := by decide

set_option maxHeartbeats 2000000 in
theorem c8chunk6 : ((List.range 250).all fun k => c8ok (1500 + k)) = true := by decide

set_option maxHeartbeats 2000000 in
theorem c8chunk7 : ((List.range 250).all fun k => c8ok (1750 + k)) = true := by decide

set_option maxHeartbeats 2000000 in
theorem c8chunk8 : ((List.range 250).all fun k => c8ok (2000 + k)) = true := by decide

set_option maxHeartbeats 2000000 in
theorem c8chunk9 : ((List.range 249).all fun k => c8ok (2250 + k)) = true := by decide

theorem c8all (j : ℕ) (hj : j < 2499) : c8ok j = true := by
  by_cases h0 : j < 250
  · exact chunk_all c8ok 0 250 c8chunk0 j (by omega) (by omega)
  by_cases h1 : j < 500
  · exact chunk_all c8ok 250 250 c8chunk1 j (by omega) (by omega)
  by_cases h2 : j < 750
  · exact chunk_all c8ok 500 250 c8chunk2 j (by omega) (by omega)
  by_cases h3 : j < 1000
  · exact chunk_all c8ok 750 250 c8chunk3 j (by omega) (by omega)
  by_cases h4 : j < 1250
  · exact chunk_all c8ok 1000 250 c8chunk4 j (by omega) (by omega)
  by_cases h5 : j < 1500
  · exact chunk_all c8ok 1250 250 c8chunk5 j (by omega) (by omega)
  by_cases h6 : j < 1750
  · exact chunk_all c8ok 1500 250 c8chunk6 j (by omega) (by omega)
  by_cases h7 : j < 2000
  · exact chunk_all c8ok 1750 250 c8chunk7 j (by omega) (by omega)
  by_cases h8 : j < 2250
  · exact chunk_all c8ok 2000 250 c8chunk8 j (by omega) (by omega)
  exact chunk_all c8ok 2250 249 c8chunk9 j (by omega) (by omega)

/-- C8 counterexample: with the PostmortemMRIConvert bands
(wm = [500, 1700), gm = [1700, 3000)), the boundary voxel v = wm_min =
500 is inside [wm_min, gm_max), maps under the inverter to exactly
gm_max = 3000, which the second pass with swapped bands sends to
background 0, an error of 500 - far beyond any truncation bound. -/
theorem C8_counterexample :
    flip_voxel (pf 1700) (pf 3000) (pf 500) (pf 1700)
      (flip_voxel (pf 500) (pf 1700) (pf 1700) (pf 3000) (pf 500)) = pf 0 ∧
    ¬ |(flip_voxel (pf 1700) (pf 3000) (pf 500) (pf 1700)
        (flip_voxel (pf 500) (pf 1700) (pf 1700) (pf 3000) (pf 500))).num - 500| ≤ 2 := by
  constructor <;> decide

/-- C8 amended: for every integer voxel value strictly between wm_min =
500 and gm_max = 3000 (the left endpoint excluded: it maps exactly to
gm_max, which the swapped-band second pass sends to background),
applying the inverter twice with the swapped band bounds - the float
arithmetic of both passes modeled bit-exactly - restores the original
value to within 1. -/
theorem C8_involution (v : ℤ) (h1 : 500 < v) (h2 : v < 3000) :
    |(flip_voxel (pf 1700) (pf 3000) (pf 500) (pf 1700)
        (flip_voxel (pf 500) (pf 1700) (pf 1700) (pf 3000) (pf v))).num - v| ≤ 1 := by
  have hk : (v - 501).toNat < 2499 := by omega
  have h := c8all ((v - 501).toNat) hk
  unfold c8ok at h
  have hv : (501 : ℤ) + ((v - 501).toNat : ℤ) = v := by omega
  rw [hv] at h
  have h' := of_decide_eq_true h
  rw [abs_le]
  omega

/-- Witness for C8_involution at v = 1000. -/
theorem C8_involution_witness :
    (500 : ℤ) < 1000 ∧ (1000 : ℤ) < 3000 ∧
    |(flip_voxel (pf 1700) (pf 3000) (pf 500) (pf 1700)
        (flip_voxel (pf 500) (pf 1700) (pf 1700) (pf 3000) (pf 1000))).num - 1000| ≤ 1 :=
  ⟨by norm_num, by norm_num, C8_involution 1000 (by norm_num) (by norm_num)⟩

/-
  CLAIM C4.
-/

/-- C4: the three-pass mask builder run leaves the data grid it reads
exactly as it found it (the in-place row reversals of row_search hit the
mask's rows in pass 1 and fresh per-slice copies in passes 2 and 3), so
running the builder a second time on the same input produces the
identical mask. -/
theorem C4_mask_builder_idempotent (gm t0 t1 t2 : PyF) (data : Grid) :
    (build_mask_run gm t0 t1 t2 data).2 = data ∧
    (build_mask_run gm t0 t1 t2 ((build_mask_run gm t0 t1 t2 data).2)).1 =
      (build_mask_run gm t0 t1 t2 data).1 :=
  ⟨rfl, rfl⟩

/-
  CLAIM C5.
-/

/-- Two-spike voxel population: mode bin at 500 (three voxels), second
spike at 2000 (two voxels). -/
def two_spike_list : List PyF := [pf 500, pf 500, pf 500, pf 2000, pf 2000]

/-- One-row grid carrying the the two-spike population plus a negative
and a zero voxel. -/
def two_spike_grid : Grid :=
  [[[pf 500, pf 500, pf 500, pf 2000, pf 2000, pf (-7), pf 0]]]

theorem foldl_fixed2 {α β : Type} (f : β → α → β) (l : List α) (b : β)
    (h : ∀ x ∈ l, f b x = b) : l.foldl f b = b := by
  induction l with
  | nil => rfl
  | cons x xs ih =>
    simp only [List.foldl_cons, h x (List.mem_cons_self x xs)]
    exact ih fun y hy => h y (List.mem_cons_of_mem x hy)

theorem two_spike_bins : two_spike_list.filterMap effBin = [100, 100, 100, 400, 400] := by
  decide

theorem two_spike_count_zero (j : ℕ) (hj : j ≠ 100 ∧ j ≠ 400) :
    binCount two_spike_list j = 0 := by
  unfold binCount
  rw [two_spike_bins, List.count_eq_zero]
  simp
  omega

theorem two_spike_count_100 : binCount two_spike_list 100 = 3 := by
  unfold binCount
  rw [two_spike_bins]
  decide

theorem two_spike_count_400 : binCount two_spike_list 400 = 2 := by
  unfold binCount
  rw [two_spike_bins]
  decide

/-- The mode scan of find_peak_diff on the two-spike population: the
histogram has its first strict maximum at bin 100, representative
intensity 500, so the peak difference is 500 - 1785. -/
theorem two_spike_peak : find_peak_diff two_spike_list = 500 - 1785 := by
  unfold find_peak_diff
  dsimp only
  rw [show (1999 : ℕ) = 99 + 1900 from by norm_num, List.range_add,
      List.map_append, List.map_map]
  rw [show (1900 : ℕ) = 1 + 1899 from by norm_num, List.range_add,
      List.map_append, List.map_map]
  rw [show (1899 : ℕ) = 299 + 1600 from by norm_num, List.range_add,
      List.map_append, List.map_map]
  rw [show (1600 : ℕ) = 1 + 1599 from by norm_num, List.range_add,
      List.map_append, List.map_map]
  rw [List.foldl_append, List.foldl_append, List.foldl_append, List.foldl_append]
  rw [foldl_fixed2 _ _ ((0 : ℕ), (0 : ℕ)) ?hseg1]
  case hseg1 =>
    intro b hb
    simp only [List.mem_map, List.mem_range] at hb
    obtain ⟨k, hk, rfl⟩ := hb
    rw [Nat.mul_div_cancel_left (k + 1) (by norm_num)]
    rw [two_spike_count_zero (k + 1) (by omega)]
    simp
  have hs1 : List.map ((fun k => 5 * (k + 1)) ∘ fun x => 99 + x) (List.range 1) = [500] := by
    decide
  rw [hs1]
  simp only [List.foldl_cons, List.foldl_nil]
  rw [show (500 : ℕ) / 5 = 100 from by norm_num, two_spike_count_100]
  norm_num
  rw [foldl_fixed2 _ _ ((3 : ℕ), (500 : ℕ)) ?hseg2]
  case hseg2 =>
    intro b hb
    simp only [List.mem_map, List.mem_range, Function.comp] at hb
    obtain ⟨k, hk, rfl⟩ := hb
    rw [Nat.mul_div_cancel_left _ (by norm_num)]
    rw [two_spike_count_zero _ (by omega)]
    simp
  have hs2 : List.map ((((fun k => 5 * (k + 1)) ∘ fun x => 99 + x) ∘ fun x => 1 + x) ∘
      fun x => 299 + x) (List.range 1) = [2000] := by decide
  rw [hs2]
  simp only [List.foldl_cons, List.foldl_nil]
  rw [show (2000 : ℕ) / 5 = 400 from by norm_num, two_spike_count_400]
  norm_num
  rw [foldl_fixed2 _ _ ((3 : ℕ), (500 : ℕ)) ?hseg3]
  case hseg3 =>
    intro b hb
    simp only [List.mem_map, List.mem_range, Function.comp] at hb
    obtain ⟨k, hk, rfl⟩ := hb
    rw [Nat.mul_div_cancel_left _ (by norm_num)]
    rw [two_spike_count_zero _ (by omega)]
    simp
  norm_num [norm_intens]

/-- C5: the GlobalNormalizer subtracts diff = mode - 1785 (histogram of
bin width 5 over [0,10000), mode excluding bin 0) from every voxel
strictly greater than 0 and leaves voxels at or below 0 unchanged, with
no clamping; on the two-spike histogram the diff is 500 - 1785 = -1285,
so every positive voxel is shifted by adding 1285 (3285 exceeds the old
gray band bound unclamped, and the voxels -7 and 0 are untouched). -/
theorem C5_global_normalizer :
    (∀ (g : Grid) (a s c : ℕ) (v : PyF),
      cellAt? g a s c = some v →
      cellAt? (image_normalization g) a s c =
        some (if pfLt (pf 0) v then pfSub v (pf (find_peak_diff (collect_pos g))) else v)) ∧
    find_peak_diff two_spike_list = 500 - 1785 ∧
    image_normalization two_spike_grid =
      [[[pf 1785, pf 1785, pf 1785, pf 3285, pf 3285, pf (-7), pf 0]]] := by
  refine ⟨?_, two_spike_peak, ?_⟩
  · intro g a s c v hv
    unfold image_normalization
    rw [cellAt?_map3, hv, Option.map_some']
  · have hc : collect_pos two_spike_grid = two_spike_list := by decide
    unfold image_normalization
    dsimp only
    rw [hc, two_spike_peak]
    decide

/-- Witness for the quantified part of C5_global_normalizer. -/
theorem C5_global_normalizer_witness :
    cellAt? (image_normalization two_spike_grid) 0 0 3 =
      some (if pfLt (pf 0) (pf 2000) then
        pfSub (pf 2000) (pf (find_peak_diff (collect_pos two_spike_grid)))
      else pf 2000) :=
  C5_global_normalizer.1 two_spike_grid 0 0 3 (pf 2000) (by decide)

/-
  CLAIM C10.
-/

/-- C10: the Binarizer's blur step computes neighborhood sums but never
writes a voxel back, so whenever it returns (instead of raising on an
out-of-bounds neighbor read, which has no try/except), the returned
grid is the input grid unchanged. -/
theorem C10_pixel_cleanup_identity (z : PyF × PyF × PyF) (g out : Grid)
    (h : pixel_cleanup z g = some out) : out = g := by
  unfold pixel_cleanup at h
  rcases Option.map_eq_some'.mp h with ⟨su, _, h2⟩
  exact h2.symm

/-- Witness for C10_pixel_cleanup_identity. -/
theorem C10_pixel_cleanup_identity_witness :
    pixel_cleanup (pf 1, pf 1, pf 1) [[[pf 0]]] = some [[[pf 0]]] ∧
    ([[[pf 0]]] : Grid) = [[[pf 0]]] :=
  ⟨by decide, C10_pixel_cleanup_identity (pf 1, pf 1, pf 1) [[[pf 0]]] [[[pf 0]]] (by decide)⟩

/-
  CLAIMS C6 and C7.
-/

theorem cellAt_setCell_ne (g : Grid) (a2 s2 c2 a s c : ℕ) (v : PyF)
    (h : ¬(a2 = a ∧ s2 = s ∧ c2 = c)) :
    cellAt (setCell g a2 s2 c2 v) a s c = cellAt g a s c := by
  unfold cellAt cellAt? setCell
  rw [List.getElem?_set]
  by_cases ha : a2 = a
  · subst ha
    rw [if_pos rfl]
    by_cases hl : a2 < g.length
    · rw [if_pos hl]
      have hpl : g[a2]? = some (g[a2]) := List.getElem?_eq_getElem hl
      rw [hpl]
      have hgd : g.getD a2 [] = g[a2] := by
        rw [List.getD_eq_getElem?_getD, hpl]
        rfl
      rw [hgd]
      simp only [Option.some_bind]
      rw [List.getElem?_set]
      by_cases hs : s2 = s
      · subst hs
        rw [if_pos rfl]
        by_cases hsl : s2 < (g[a2]).length
        · rw [if_pos hsl]
          have hrow : (g[a2])[s2]? = some ((g[a2])[s2]) :=
            List.getElem?_eq_getElem hsl
          rw [hrow]
          have hgd2 : (g[a2]).getD s2 [] = (g[a2])[s2] := by
            rw [List.getD_eq_getElem?_getD, hrow]
            rfl
          rw [hgd2]
          simp only [Option.some_bind]
          rw [List.getElem?_set]
          have hc : ¬ (c2 = c) := by tauto
          rw [if_neg hc]
        · rw [if_neg hsl, List.getElem?_eq_none (le_of_not_lt hsl)]
      · rw [if_neg hs]
    · rw [if_neg hl, List.getElem?_eq_none (le_of_not_lt hl)]
  · rw [if_neg ha]

theorem rr_fold_cell (data msk : Grid) (wmn gmn gmx : PyF)
    (rda rds rdc rba rbs rbc : ℤ) (rc : ℕ) (a s c : ℕ)
    (hload : bound_check data (a : ℤ) rda (s : ℤ) rds (c : ℤ) rdc < rc) :
    ∀ (ps : List (ℕ × ℕ × ℕ)) (st : Grid × List (ℕ × ℕ × ℕ)),
      cellAt ((ps.foldl
        (remove_rind_step data msk wmn gmn gmx rda rds rdc rba rbs rbc rc) st).1) a s c =
        cellAt st.1 a s c := by
  intro ps
  induction ps with
  | nil => intro st; rfl
  | cons p ps ih =>
    intro st
    rw [List.foldl_cons, ih]
    show cellAt (remove_rind_step data msk wmn gmn gmx rda rds rdc rba rbs rbc rc st p).1 a s c =
      cellAt st.1 a s c
    unfold remove_rind_step
    dsimp only
    by_cases hb : pfLt (pfMul wmn ⟨9, 10⟩) (cellAt data p.1 p.2.1 p.2.2)
    · rw [if_pos hb]
      by_cases hcut : rc ≤ bound_check data (p.1 : ℤ) rda (p.2.1 : ℤ) rds (p.2.2 : ℤ) rdc
      · rw [if_pos hcut]
        apply cellAt_setCell_ne
        rintro ⟨h1, h2, h3⟩
        rw [h1, h2, h3] at hcut
        omega
      · rw [if_neg hcut]
    · rw [if_neg hb]

theorem rr_fold_list (data msk : Grid) (wmn gmn gmx : PyF)
    (rda rds rdc rba rbs rbc : ℤ) (rc : ℕ) :
    ∀ (ps : List (ℕ × ℕ × ℕ)) (st : Grid × List (ℕ × ℕ × ℕ)),
      (∀ q ∈ st.2, rc ≤ bound_check data (q.1 : ℤ) rda (q.2.1 : ℤ) rds (q.2.2 : ℤ) rdc) →
      ∀ q ∈ (ps.foldl
        (remove_rind_step data msk wmn gmn gmx rda rds rdc rba rbs rbc rc) st).2,
        rc ≤ bound_check data (q.1 : ℤ) rda (q.2.1 : ℤ) rds (q.2.2 : ℤ) rdc := by
  intro ps
  induction ps with
  | nil => intro st hst; exact hst
  | cons p ps ih =>
    intro st hst
    rw [List.foldl_cons]
    apply ih
    show ∀ q ∈ (remove_rind_step data msk wmn gmn gmx rda rds rdc rba rbs rbc rc st p).2, _
    unfold remove_rind_step
    dsimp only
    by_cases hb : pfLt (pfMul wmn ⟨9, 10⟩) (cellAt data p.1 p.2.1 p.2.2)
    · rw [if_pos hb]
      by_cases hcut : rc ≤ bound_check data (p.1 : ℤ) rda (p.2.1 : ℤ) rds (p.2.2 : ℤ) rdc
      · rw [if_pos hcut]
        by_cases hmask : ¬ pfEq (cellAt msk p.1 p.2.1 p.2.2) mask_set
        · rw [if_pos hmask]
          intro q hq
          rcases List.mem_append.mp hq with hq | hq
          · exact hst q hq
          · rcases List.mem_singleton.mp hq with rfl
            exact hcut
        · rw [if_neg hmask]
          exact hst
      · rw [if_neg hcut]
        exact hst
    · rw [if_neg hb]
      exact hst

theorem reblend_fold_none (pflip : Grid) (rba rbs rbc : ℤ) (ps : List (ℕ × ℕ × ℕ)) :
    ps.foldl (reblend_step pflip rba rbs rbc) none = none := by
  induction ps with
  | nil => rfl
  | cons p ps ih => rw [List.foldl_cons]; exact ih

theorem reblend_fold_cell (pflip : Grid) (rba rbs rbc : ℤ) (a s c : ℕ) :
    ∀ (ps : List (ℕ × ℕ × ℕ)) (ch out : Grid),
      (∀ q ∈ ps, ¬(q.1 = a ∧ q.2.1 = s ∧ q.2.2 = c)) →
      ps.foldl (reblend_step pflip rba rbs rbc) (some ch) = some out →
      cellAt out a s c = cellAt ch a s c := by
  intro ps
  induction ps with
  | nil =>
    intro ch out _ hfold
    cases hfold
    rfl
  | cons p ps ih =>
    intro ch out hne hfold
    rw [List.foldl_cons] at hfold
    rcases hstep : reblend_step pflip rba rbs rbc (some ch) p with _ | ch2
    · rw [hstep, reblend_fold_none] at hfold
      cases hfold
    · rw [hstep] at hfold
      have hcell : cellAt ch2 a s c = cellAt ch a s c := by
        unfold reblend_step at hstep
        rw [Option.some_bind] at hstep
        dsimp only at hstep
        split_ifs at hstep with hz
        rw [Option.some_inj] at hstep
        rw [← hstep]
        apply cellAt_setCell_ne
        exact hne p (List.mem_cons_self p ps)
      rw [ih ch2 out (fun q hq => hne q (List.mem_cons_of_mem p hq)) hfold, hcell]

/-- C6: RindRemover never modifies a voxel whose boundary load is below
rind_cutoff: when remove_rind completes, every such voxel of the integer
data grid keeps its original value, the cosmetic re-blend pass included
(rind candidates all have load at least rind_cutoff). -/
theorem C6_rind_frame (z : PyF × PyF × PyF) (pflip : Grid) (gmn gmx wmn wmx : PyF)
    (msk : Grid) (rt re : PyF) (rc : ℕ) (data out : Grid) (a s c : ℕ)
    (hint : IntGrid data)
    (hout : remove_rind z pflip gmn gmx wmn wmx msk rt re rc data = some out)
    (hload : bound_check data (a : ℤ) (pyInt (pfDiv (pfAdd rt re) z.1)) (s : ℤ)
      (pyInt (pfDiv (pfAdd rt re) z.2.1)) (c : ℤ) (pyInt (pfDiv (pfAdd rt re) z.2.2)) < rc) :
    cellAt out a s c = cellAt data a s c := by
  unfold remove_rind at hout
  dsimp only at hout
  have hlist := rr_fold_list data msk wmn gmn gmx
    (pyInt (pfDiv (pfAdd rt re) z.1)) (pyInt (pfDiv (pfAdd rt re) z.2.1))
    (pyInt (pfDiv (pfAdd rt re) z.2.2)) (pyInt (pfDiv blur_range z.1))
    (pyInt (pfDiv blur_range z.2.1)) (pyInt (pfDiv blur_range z.2.2)) rc
    (allIdx data) (make_copy data, []) (by intro q hq; cases hq)
  have hframe := reblend_fold_cell pflip (pyInt (pfDiv blur_range z.1))
    (pyInt (pfDiv blur_range z.2.1)) (pyInt (pfDiv blur_range z.2.2)) a s c _ _ out
    ?hne hout
  case hne =>
    rintro q hq ⟨h1, h2, h3⟩
    have hge := hlist q hq
    rw [h1, h2, h3] at hge
    omega
  rw [hframe]
  rw [rr_fold_cell data msk wmn gmn gmx _ _ _ _ _ _ rc a s c hload (allIdx data)
    (make_copy data, [])]
  rw [make_copy_eq_self data hint]

/-- Witness for C6_rind_frame on a one-voxel grid of value 50 (below the
near-white threshold, boundary load 0). -/
theorem C6_rind_frame_witness :
    IntGrid [[[pf 50]]] ∧
    remove_rind (pf 1, pf 1, pf 1) [[[pf 50]]] (pf 500) (pf 1700) (pf 1700) (pf 3000)
      [[[pf 50]]] ⟨7, 10⟩ ⟨13, 10⟩ 10 [[[pf 50]]] = some [[[pf 50]]] ∧
    cellAt ([[[pf 50]]] : Grid) 0 0 0 = cellAt ([[[pf 50]]] : Grid) 0 0 0 :=
  ⟨by decide, by decide,
    C6_rind_frame (pf 1, pf 1, pf 1) [[[pf 50]]] (pf 500) (pf 1700) (pf 1700) (pf 3000)
      [[[pf 50]]] ⟨7, 10⟩ ⟨13, 10⟩ 10 [[[pf 50]]] [[[pf 50]]] 0 0 0
      (by decide) (by decide) (by decide)⟩

/-- Data grid for the remove_rind degenerate cases: one bright voxel in
the center of a 3x3x3 background. -/
def rr_data : Grid :=
  [[[pf 0, pf 0, pf 0], [pf 0, pf 0, pf 0], [pf 0, pf 0, pf 0]],
   [[pf 0, pf 0, pf 0], [pf 0, pf 2000, pf 0], [pf 0, pf 0, pf 0]],
   [[pf 0, pf 0, pf 0], [pf 0, pf 0, pf 0], [pf 0, pf 0, pf 0]]]

/-- All-background 3x3x3 grid (used as mask and as a degenerate
pre-inversion snapshot). -/
def rr_zero : Grid :=
  [[[pf 0, pf 0, pf 0], [pf 0, pf 0, pf 0], [pf 0, pf 0, pf 0]],
   [[pf 0, pf 0, pf 0], [pf 0, pf 0, pf 0], [pf 0, pf 0, pf 0]],
   [[pf 0, pf 0, pf 0], [pf 0, pf 0, pf 0], [pf 0, pf 0, pf 0]]]

/-- Pre-inversion snapshot with exactly one positive voxel (the center):
the re-blend denominator becomes zero. -/
def rr_pre_one : Grid :=
  [[[pf 0, pf 0, pf 0], [pf 0, pf 0, pf 0], [pf 0, pf 0, pf 0]],
   [[pf 0, pf 0, pf 0], [pf 0, pf 1000, pf 0], [pf 0, pf 0, pf 0]],
   [[pf 0, pf 0, pf 0], [pf 0, pf 0, pf 0], [pf 0, pf 0, pf 0]]]

/-- Pre-inversion snapshot with two positive voxels: the re-blend
denominator is one and the pass completes. -/
def rr_pre_two : Grid :=
  [[[pf 800, pf 0, pf 0], [pf 0, pf 0, pf 0], [pf 0, pf 0, pf 0]],
   [[pf 0, pf 0, pf 0], [pf 0, pf 1000, pf 0], [pf 0, pf 0, pf 0]],
   [[pf 0, pf 0, pf 0], [pf 0, pf 0, pf 0], [pf 0, pf 0, pf 0]]]

/-- C7 counterexample: on rr_data with the post-swap bands, zoom 2 and
rind_cutoff 10, the center voxel is a rind candidate with no qualifying
neighbor (fallback taken), and the re-blend pass then divides by
voxel_add - 1 = 0, raising ZeroDivisionError: remove_rind does not
complete normally. -/
theorem C7_counterexample :
    remove_rind (pf 2, pf 2, pf 2) rr_pre_one (pf 500) (pf 1700) (pf 1700) (pf 3000)
      rr_zero ⟨7, 10⟩ ⟨13, 10⟩ 10 rr_data = none := by
  decide

/-- C7 amended: a coronal section with no more than norm_intens_pt
qualifying voxels gets gm_max as its representative intensity; the
neighbor-average step of RindRemover falls back to the fixed default
gm_min + 0.20 (gm_max - gm_min) = 740 and completes when the re-blend
count is not exactly one: with two positive pre-inversion voxels the
center becomes 740 - (-200 * 0.4) = 820, and with zero positive voxels
the integer division 0 / (-1) = 0 leaves the replaced value 740
unadjusted; only a re-blend count of exactly one raises. -/
theorem C7_degenerate_fallbacks :
    (∀ (wm gmx : PyF) (np : ℕ) (data : Grid) (c : ℕ),
      c < ((data.getD 0 []).getD 0 []).length →
      (cor_list wm data c).length ≤ np →
      (all_intensity_list wm gmx np data)[c]? = some gmx) ∧
    remove_rind (pf 2, pf 2, pf 2) rr_pre_two (pf 500) (pf 1700) (pf 1700) (pf 3000)
      rr_zero ⟨7, 10⟩ ⟨13, 10⟩ 10 rr_data =
      some [[[pf 0, pf 0, pf 0], [pf 0, pf 0, pf 0], [pf 0, pf 0, pf 0]],
            [[pf 0, pf 0, pf 0], [pf 0, ⟨82000, 100⟩, pf 0], [pf 0, pf 0, pf 0]],
            [[pf 0, pf 0, pf 0], [pf 0, pf 0, pf 0], [pf 0, pf 0, pf 0]]] ∧
    remove_rind (pf 2, pf 2, pf 2) rr_zero (pf 500) (pf 1700) (pf 1700) (pf 3000)
      rr_zero ⟨7, 10⟩ ⟨13, 10⟩ 10 rr_data =
      some [[[pf 0, pf 0, pf 0], [pf 0, pf 0, pf 0], [pf 0, pf 0, pf 0]],
            [[pf 0, pf 0, pf 0], [pf 0, ⟨74000, 100⟩, pf 0], [pf 0, pf 0, pf 0]],
            [[pf 0, pf 0, pf 0], [pf 0, pf 0, pf 0], [pf 0, pf 0, pf 0]]] := by
  refine ⟨?_, by decide, by decide⟩
  intro wm gmx np data c hc hlen
  unfold all_intensity_list
  rw [List.getElem?_map, List.getElem?_range hc]
  simp only [Option.map_some']
  unfold section_rep
  rw [if_neg]
  push_neg
  intro _
  omega

/-- Witness for the quantified part of C7_degenerate_fallbacks. -/
theorem C7_degenerate_fallbacks_witness :
    (0 : ℕ) < ((([[[pf 0]]] : Grid).getD 0 []).getD 0 []).length ∧
    (cor_list (pf 1700) [[[pf 0]]] 0).length ≤ 200 ∧
    (all_intensity_list (pf 1700) (pf 3000) 200 [[[pf 0]]])[0]? = some (pf 3000) :=
  ⟨by decide, by decide,
    C7_degenerate_fallbacks.1 (pf 1700) (pf 3000) 200 [[[pf 0]]] 0 (by decide) (by decide)⟩

/-
  CLAIM C9.
-/

theorem mapIdxF_congr {α β : Type} (f g : ℕ → α → β) (i : ℕ) (l : List α)
    (h : ∀ j x, f j x = g j x) : mapIdxF f i l = mapIdxF g i l := by
  induction l generalizing i with
  | nil => rfl
  | cons x xs ih => simp [mapIdxF, h, ih]

theorem mirror_cell_right (pl0 : Plane) (m : ℤ) (s c : ℕ) (v : PyF) (h : m < (s : ℤ)) :
    mirror_cell pl0 m s c v =
      match (pyGet pl0 (m - ((s : ℤ) - m))).bind fun r => pyGet r (c : ℤ) with
      | some x => x
      | none => v := by
  simp [mirror_cell, make_left_mirror, make_right_mirror, check_orient, h]

theorem mirror_cell_id (pl0 : Plane) (m : ℤ) (s c : ℕ) (v : PyF) (h : ¬ m < (s : ℤ)) :
    mirror_cell pl0 m s c v = v := by
  simp [mirror_cell, make_left_mirror, make_right_mirror, check_orient, h]

theorem plane_mirror_invariant (pl : Plane) (m : ℤ) (hm : 0 ≤ m)
    (hlen : (pl.length : ℤ) ≤ 2 * m + 1) :
    ∀ k, k ≤ pl.length →
      (((List.range k).foldl (fun pcur s =>
          pcur.set s (mapIdxF (fun c v => mirror_cell pcur m s c v) 0 (pcur.getD s []))) pl).length
        = pl.length) ∧
      (∀ j : ℕ, ((List.range k).foldl (fun pcur s =>
          pcur.set s (mapIdxF (fun c v => mirror_cell pcur m s c v) 0 (pcur.getD s []))) pl)[j]? =
        if m < (j : ℤ) ∧ j < k then
          some (mapIdxF (fun c v => mirror_cell pl m j c v) 0 (pl.getD j []))
        else pl[j]?) := by
  intro k
  induction k with
  | zero =>
    intro _
    refine ⟨rfl, fun j => ?_⟩
    rw [if_neg]
    · rfl
    · rintro ⟨_, hj⟩
      omega
  | succ k ih =>
    intro hk
    obtain ⟨hlenP, hrows⟩ := ih (by omega)
    rw [List.range_succ, List.foldl_append, List.foldl_cons, List.foldl_nil]
    set P := (List.range k).foldl (fun pcur s =>
      pcur.set s (mapIdxF (fun c v => mirror_cell pcur m s c v) 0 (pcur.getD s []))) pl with hP
    have hgd : P.getD k [] = pl.getD k [] := by
      rw [List.getD_eq_getElem?_getD, List.getD_eq_getElem?_getD, hrows k,
        if_neg (by omega)]
    by_cases hmk : m < (k : ℤ)
    · have hread : ∀ (c : ℕ) (v : PyF), mirror_cell P m k c v = mirror_cell pl m k c v := by
        intro c v
        rw [mirror_cell_right P m k c v hmk, mirror_cell_right pl m k c v hmk]
        have hPg : pyGet P (m - ((k : ℤ) - m)) = pyGet pl (m - ((k : ℤ) - m)) := by
          unfold pyGet
          rw [hlenP]
          split_ifs with h0 hneg
          · rw [hrows]
            rw [if_neg]
            rintro ⟨hc1, _⟩
            omega
          · rw [hrows]
            rw [if_neg]
            rintro ⟨_, hc2⟩
            omega
          · rfl
        rw [hPg]
      have hrow : mapIdxF (fun c v => mirror_cell P m k c v) 0 (P.getD k []) =
          mapIdxF (fun c v => mirror_cell pl m k c v) 0 (pl.getD k []) := by
        rw [hgd]
        exact mapIdxF_congr _ _ 0 _ fun j x => hread j x
      refine ⟨by rw [List.length_set, hlenP], fun j => ?_⟩
      rw [List.getElem?_set]
      by_cases hj : k = j
      · subst hj
        rw [if_pos rfl, if_pos (by rw [hlenP]; omega), if_pos ⟨hmk, by omega⟩, hrow]
      · rw [if_neg hj, hrows j]
        by_cases hc : m < (j : ℤ) ∧ j < k
        · rw [if_pos hc, if_pos ⟨hc.1, by omega⟩]
        · rw [if_neg hc, if_neg]
          rintro ⟨h1, h2⟩
          exact hc ⟨h1, by omega⟩
    · have hrow : mapIdxF (fun c v => mirror_cell P m k c v) 0 (P.getD k []) = P.getD k [] :=
        mapIdxF_congr_id _ 0 _ fun j x => mirror_cell_id P m k j x hmk
      refine ⟨by rw [List.length_set, hlenP], fun j => ?_⟩
      rw [List.getElem?_set]
      by_cases hj : k = j
      · subst hj
        rw [if_pos rfl, if_pos (by rw [hlenP]; omega), hrow, hgd,
          if_neg (by rintro ⟨h1, _⟩; omega)]
        rw [List.getD_eq_getElem?_getD, List.getElem?_eq_getElem (by omega : k < pl.length)]
        rfl
      · rw [if_neg hj, hrows j]
        by_cases hc : m < (j : ℤ) ∧ j < k
        · rw [if_pos hc, if_pos ⟨hc.1, by omega⟩]
        · rw [if_neg hc, if_neg]
          rintro ⟨h1, h2⟩
          exact hc ⟨h1, by omega⟩

theorem plane_mirror_eq_snap (pl : Plane) (m : ℤ) (hm : 0 ≤ m)
    (hlen : (pl.length : ℤ) ≤ 2 * m + 1) :
    plane_mirror_inplace m pl =
      mapIdxF (fun s row => mapIdxF (fun c v => mirror_cell pl m s c v) 0 row) 0 pl := by
  obtain ⟨_, hrows⟩ := plane_mirror_invariant pl m hm hlen pl.length le_rfl
  apply List.ext_getElem?
  intro j
  rw [mapIdxF_getElem?]
  unfold plane_mirror_inplace
  rw [hrows j]
  by_cases hj : j < pl.length
  · have hsome : pl[j]? = some (pl[j]) := List.getElem?_eq_getElem hj
    have hgd : pl.getD j [] = pl[j] := by
      rw [List.getD_eq_getElem?_getD, hsome]
      rfl
    by_cases hmj : m < (j : ℤ)
    · rw [if_pos ⟨hmj, hj⟩, hsome]
      simp only [Option.map_some', Nat.zero_add]
      rw [hgd]
    · rw [if_neg (by tauto), hsome]
      simp only [Option.map_some', Nat.zero_add]
      rw [mapIdxF_congr_id _ 0 _ fun i x => mirror_cell_id pl m j i x hmj]
  · rw [if_neg (by tauto), List.getElem?_eq_none (by omega)]
    rfl

/-- C9: with the NiftiMirror configuration (right mirror about the
midline, translation first), neither operation ever reads a cell it has
already written: mirror_data, though it mutates the grid in place,
produces exactly the output of the reference version that snapshots the
whole grid and reads only the snapshot (its reads hit only rows at or
below the midline, or wrapped rows not yet processed), and move_image
reads only the explicit make_copy snapshot. -/
theorem C9_copy_then_overwrite (g : Grid) (A S W : ℕ) (hrect : Rect g A S W)
    (hint : IntGrid g) :
    mirror_data g = mirror_data_snap g ∧ move_image g = move_image_snap g := by
  constructor
  · unfold mirror_data mirror_data_snap
    apply List.map_congr_left
    intro pl hpl
    have hS : pl.length = (g.getD 0 []).length := by
      rcases g with _ | ⟨pl0, gs⟩
      · cases hpl
      · have h1 := (hrect.2 pl hpl).1
        have h2 := (hrect.2 pl0 (List.mem_cons_self pl0 gs)).1
        simp only [List.getD]
        rw [h1]
        simp [h2]
    apply plane_mirror_eq_snap
    · simp [mirror_point, mirror_line]
      positivity
    · simp only [mirror_point, mirror_line, hS]
      omega
  · unfold move_image move_image_snap
    rw [make_copy_eq_self g hint]

/-- Witness for C9_copy_then_overwrite on a 1x5x1 grid. -/
theorem C9_copy_then_overwrite_witness :
    mirror_data [[[pf 1], [pf 2], [pf 3], [pf 4], [pf 5]]] =
      mirror_data_snap [[[pf 1], [pf 2], [pf 3], [pf 4], [pf 5]]] ∧
    move_image [[[pf 1], [pf 2], [pf 3], [pf 4], [pf 5]]] =
      move_image_snap [[[pf 1], [pf 2], [pf 3], [pf 4], [pf 5]]] :=
  C9_copy_then_overwrite [[[pf 1], [pf 2], [pf 3], [pf 4], [pf 5]]] 1 5 1
    (by decide) (by decide)

/-
  CLAIM C1.
-/

theorem pfEq_refl (x : PyF) : pfEq x x := rfl

theorem ne_of_not_pfEq {x y : PyF} (h : ¬ pfEq x y) : x ≠ y :=
  fun he => h (he ▸ pfEq_refl x)

theorem cellAt?_val_mem (g : Grid) (a s c : ℕ) (v : PyF) (h : cellAt? g a s c = some v) :
    ∃ pl ∈ g, ∃ r ∈ pl, v ∈ r := by
  unfold cellAt? at h
  rcases Option.bind_eq_some.mp h with ⟨pl, hpl, h2⟩
  rcases Option.bind_eq_some.mp h2 with ⟨r, hr, h3⟩
  refine ⟨pl, ?_, r, ?_, ?_⟩
  · exact List.get?_mem (by rw [List.get?_eq_getElem?]; exact hpl)
  · exact List.get?_mem (by rw [List.get?_eq_getElem?]; exact hr)
  · exact List.get?_mem (by rw [List.get?_eq_getElem?]; exact h3)

theorem cellAt?_mapIdxF3 (f : ℕ → ℕ → ℕ → PyF → PyF) (g : Grid) (a s c : ℕ) :
    cellAt? (mapIdxF (fun a2 pl => mapIdxF (fun s2 row =>
      mapIdxF (fun c2 v => f a2 s2 c2 v) 0 row) 0 pl) 0 g) a s c =
      (cellAt? g a s c).map (f a s c) := by
  unfold cellAt?
  rw [mapIdxF_getElem?]
  cases g[a]? with
  | none => rfl
  | some pl =>
    simp only [Option.map_some', Option.some_bind, Nat.zero_add]
    rw [mapIdxF_getElem?]
    cases pl[s]? with
    | none => rfl
    | some row =>
      simp only [Option.map_some', Option.some_bind, Nat.zero_add]
      rw [mapIdxF_getElem?]
      cases row[c]? with
      | none => rfl
      | some v => simp [Nat.zero_add]

theorem brain_mask_cor_cellAt? (gm t : PyF) (msk : Grid) (a s c : ℕ) :
    cellAt? (brain_mask_cor gm t msk) a s c =
      (msk[a]?.bind fun pl => pl[s]?).bind fun row =>
        (row.reverse[c]?).map fun v =>
          if (row_search gm t row).1 ≠ 0 ∧ (row_search gm t row).2 ≠ 0 then
            (if (row_search gm t row).1 < c ∧ c < (row_search gm t row).2 then mask_set else v)
          else v := by
  unfold brain_mask_cor cellAt?
  rw [List.getElem?_map]
  cases msk[a]? with
  | none => rfl
  | some pl =>
    simp only [Option.map_some', Option.some_bind]
    rw [List.getElem?_map]
    cases pl[s]? with
    | none => rfl
    | some row =>
      simp only [Option.map_some', Option.some_bind]
      by_cases hb : (row_search gm t row).1 ≠ 0 ∧ (row_search gm t row).2 ≠ 0
      · rw [if_pos hb, mapIdxF_getElem?]
        cases row.reverse[c]? with
        | none => rfl
        | some y => simp [hb]
      · rw [if_neg hb]
        cases row.reverse[c]? with
        | none => rfl
        | some y => simp [hb]

theorem brain_mask_ax_cellAt? (gm t : PyF) (data msk : Grid) (a s c : ℕ) :
    cellAt? (brain_mask_ax gm t data msk) a s c =
      (cellAt? msk a s c).map fun v =>
        if (row_search gm t (sag_row_at data a c)).1 ≠ 0 ∧
            (row_search gm t (sag_row_at data a c)).2 ≠ 0 then
          (if (row_search gm t (sag_row_at data a c)).1 < s ∧
              s < (row_search gm t (sag_row_at data a c)).2 ∧ pfEq v mask_set then v
           else cellAt data a s c)
        else v := by
  unfold brain_mask_ax
  exact cellAt?_mapIdxF3 _ msk a s c

theorem brain_mask_sag_cellAt? (gm t : PyF) (data msk : Grid) (a s c : ℕ) :
    cellAt? (brain_mask_sag gm t data msk) a s c =
      (cellAt? msk a s c).map fun v =>
        if (row_search gm t (ax_row_at data s c)).1 ≠ 0 ∧
            (row_search gm t (ax_row_at data s c)).2 ≠ 0 then
          (if (row_search gm t (ax_row_at data s c)).1 < a ∧
              a < (row_search gm t (ax_row_at data s c)).2 ∧ pfEq v mask_set then v
           else cellAt data a s c)
        else v := by
  unfold brain_mask_sag
  exact cellAt?_mapIdxF3 _ msk a s c

theorem pass_keep_iff (Bp I1 I2 : Prop) [Decidable Bp] [Decidable I1] [Decidable I2]
    (v z : PyF) (hv : v = mask_set ∨ ¬ pfEq v mask_set) (hz : ¬ pfEq z mask_set) :
    ((if Bp then (if I1 ∧ I2 ∧ pfEq v mask_set then v else z) else v) = mask_set ↔
      (v = mask_set ∧ (¬Bp ∨ (I1 ∧ I2)))) ∧
    ((if Bp then (if I1 ∧ I2 ∧ pfEq v mask_set then v else z) else v) = mask_set ∨
      ¬ pfEq (if Bp then (if I1 ∧ I2 ∧ pfEq v mask_set then v else z) else v) mask_set) := by
  have hzne : z ≠ mask_set := ne_of_not_pfEq hz
  by_cases hb : Bp <;> by_cases h1 : I1 <;> by_cases h2 : I2
  all_goals rcases hv with rfl | hv
  all_goals try have hvne := ne_of_not_pfEq hv
  all_goals simp [hb, h1, h2, hz, hzne, pfEq_refl, *]
  all_goals tauto

set_option maxHeartbeats 2000000 in
theorem mask_builder_cell_iff (gm t0 t1 t2 : PyF) (data : Grid) (A S W : ℕ) (a s c : ℕ)
    (hrect : Rect data A S W) (hint : IntGrid data)
    (hnm : ∀ pl ∈ data, ∀ r ∈ pl, ∀ v ∈ r, ¬ pfEq v mask_set)
    (ha : a < A) (hs : s < S) (hc : c < W) :
    cellAt (build_mask gm t0 t1 t2 data) a s c = mask_set ↔
      (((row_search gm t2 ((data.getD a []).getD s [])).1 ≠ 0 ∧
        (row_search gm t2 ((data.getD a []).getD s [])).2 ≠ 0 ∧
        (row_search gm t2 ((data.getD a []).getD s [])).1 < c ∧
        c < (row_search gm t2 ((data.getD a []).getD s [])).2) ∧
       ((row_search gm t0 (sag_row_at data a c)).1 = 0 ∨
        (row_search gm t0 (sag_row_at data a c)).2 = 0 ∨
        ((row_search gm t0 (sag_row_at data a c)).1 < s ∧
         s < (row_search gm t0 (sag_row_at data a c)).2)) ∧
       ((row_search gm t1 (ax_row_at data s c)).1 = 0 ∨
        (row_search gm t1 (ax_row_at data s c)).2 = 0 ∨
        ((row_search gm t1 (ax_row_at data s c)).1 < a ∧
         a < (row_search gm t1 (ax_row_at data s c)).2))) := by
  have hA : a < data.length := by rw [hrect.1]; exact ha
  have hpl : data[a]? = some (data[a]) := List.getElem?_eq_getElem hA
  have hplmem : data[a] ∈ data := List.getElem_mem hA
  have hS2 : s < (data[a]).length := by rw [(hrect.2 _ hplmem).1]; exact hs
  have hrow : (data[a])[s]? = some ((data[a])[s]) := List.getElem?_eq_getElem hS2
  have hrowmem : (data[a])[s] ∈ data[a] := List.getElem_mem hS2
  have hW : c < ((data[a])[s]).length := by
    rw [(hrect.2 _ hplmem).2 _ hrowmem]; exact hc
  have hgd : (data.getD a []).getD s [] = (data[a])[s] := by
    have e1 : List.getD data a [] = data[a] := by
      rw [List.getD_eq_getElem?_getD, hpl]
      rfl
    rw [e1, List.getD_eq_getElem?_getD, hrow]
    rfl
  have hcrev : c < ((data[a])[s]).reverse.length := by
    rw [List.length_reverse]; exact hW
  have hy : ((data[a])[s]).reverse[c]? =
      some (((data[a])[s]).reverse[c]) := List.getElem?_eq_getElem hcrev
  have hymem : ((data[a])[s]).reverse[c] ∈ (data[a])[s] :=
    List.mem_reverse.mp (List.getElem_mem hcrev)
  have hyne : ¬ pfEq (((data[a])[s]).reverse[c]) mask_set :=
    hnm _ hplmem _ hrowmem _ hymem
  have hz? : cellAt? data a s c = some (((data[a])[s])[c]) := by
    unfold cellAt?
    rw [hpl, Option.some_bind, hrow, Option.some_bind]
    exact List.getElem?_eq_getElem hW
  have hzne : ¬ pfEq (cellAt data a s c) mask_set := by
    unfold cellAt
    rw [hz?, Option.getD_some]
    exact hnm _ hplmem _ hrowmem _ (List.getElem_mem hW)
  unfold build_mask
  rw [make_copy_eq_self data hint]
  unfold cellAt
  rw [brain_mask_sag_cellAt?, brain_mask_ax_cellAt?, brain_mask_cor_cellAt?]
  rw [hpl, Option.some_bind, hrow, Option.some_bind, hy]
  simp only [Option.map_some', Option.getD_some]
  rw [hgd]
  -- pass 1 characterization
  have h1 : ∀ v : PyF, v = (if (row_search gm t2 ((data[a])[s])).1 ≠ 0 ∧
      (row_search gm t2 ((data[a])[s])).2 ≠ 0 then
        (if (row_search gm t2 ((data[a])[s])).1 < c ∧
            c < (row_search gm t2 ((data[a])[s])).2 then mask_set
         else ((data[a])[s]).reverse[c])
      else ((data[a])[s]).reverse[c]) →
      (v = mask_set ∨ ¬ pfEq v mask_set) ∧
      (v = mask_set ↔
        ((row_search gm t2 ((data[a])[s])).1 ≠ 0 ∧
         (row_search gm t2 ((data[a])[s])).2 ≠ 0 ∧
         (row_search gm t2 ((data[a])[s])).1 < c ∧
         c < (row_search gm t2 ((data[a])[s])).2)) := by
    intro v hv
    subst hv
    by_cases hbc : (row_search gm t2 ((data[a])[s])).1 ≠ 0 ∧
        (row_search gm t2 ((data[a])[s])).2 ≠ 0
    · by_cases hic : (row_search gm t2 ((data[a])[s])).1 < c ∧
          c < (row_search gm t2 ((data[a])[s])).2
      · rw [if_pos hbc, if_pos hic]
        exact ⟨Or.inl rfl, fun _ => ⟨hbc.1, hbc.2, hic.1, hic.2⟩, fun _ => rfl⟩
      · rw [if_pos hbc, if_neg hic]
        refine ⟨Or.inr hyne, ?_, ?_⟩
        · intro hEq
          exact absurd hEq (ne_of_not_pfEq hyne)
        · intro hR
          exact absurd ⟨hR.2.2.1, hR.2.2.2⟩ hic
    · rw [if_neg hbc]
      refine ⟨Or.inr hyne, ?_, ?_⟩
      · intro hEq
        exact absurd hEq (ne_of_not_pfEq hyne)
      · intro hR
        exact absurd ⟨hR.1, hR.2.1⟩ hbc
  obtain ⟨hdisj1, hiff1⟩ := h1 _ rfl
  have h2 := pass_keep_iff
    ((row_search gm t0 (sag_row_at data a c)).1 ≠ 0 ∧
      (row_search gm t0 (sag_row_at data a c)).2 ≠ 0)
    ((row_search gm t0 (sag_row_at data a c)).1 < s)
    (s < (row_search gm t0 (sag_row_at data a c)).2) _ (cellAt data a s c) hdisj1 hzne
  have h3 := pass_keep_iff
    ((row_search gm t1 (ax_row_at data s c)).1 ≠ 0 ∧
      (row_search gm t1 (ax_row_at data s c)).2 ≠ 0)
    ((row_search gm t1 (ax_row_at data s c)).1 < a)
    (a < (row_search gm t1 (ax_row_at data s c)).2) _ (cellAt data a s c) h2.2 hzne
  rw [h3.1, h2.1, hiff1]
  omega

/-- Synthetic 6x6x6 grid: a 2x2x2 block of intensity 2000 centered in a
background border two voxels thick on every side. -/
def block_grid : Grid :=
  (List.range 6).map fun a => (List.range 6).map fun s => (List.range 6).map fun c =>
    if 2 ≤ a ∧ a ≤ 3 ∧ 2 ≤ s ∧ s ≤ 3 ∧ 2 ≤ c ∧ c ≤ 3 then pf 2000 else pf 0

/-- Expected mask for block_grid with threshold 1: mask_set exactly at
the triple interior cell (3,3,3), the original intensity elsewhere. -/
def block_masked : Grid :=
  (List.range 6).map fun a => (List.range 6).map fun s => (List.range 6).map fun c =>
    if a = 3 ∧ s = 3 ∧ c = 3 then mask_set
    else if 2 ≤ a ∧ a ≤ 3 ∧ 2 ≤ s ∧ s ≤ 3 ∧ 2 ≤ c ∧ c ≤ 3 then pf 2000 else pf 0

/-- Degenerate 1x1x6 grid: a run of three voxels above gm_min along the
coronal axis with a one-voxel and a two-voxel border. -/
def mask_cx_grid : Grid := [[[pf 0, pf 2000, pf 2000, pf 2000, pf 0, pf 0]]]

/-- Threshold mask_dist / zoom = 2.0 / 4 = 0.5 voxels. -/
def mask_cx_t : PyF := pfDiv ⟨20, 10⟩ (pf 4)

/-- C1 counterexample: on the 1x1x6 grid the cell (0,0,2) ends the three
passes holding mask_set, yet its index does NOT lie strictly between
truthy (start, stop) bounds of the row scans along all three axes: the
axial and sagittal scans run over single-voxel rows whose start index 0
is falsy in Python, so no truthy bounds exist there at all (those passes
skip their rows entirely and the coronal marking survives). -/
theorem C1_counterexample :
    cellAt (build_mask (pf 500) mask_cx_t mask_cx_t mask_cx_t mask_cx_grid) 0 0 2 = mask_set ∧
    ¬ three_axis_interior (pf 500) mask_cx_t mask_cx_t mask_cx_t mask_cx_grid 0 0 2 := by
  constructor <;> decide

/-- C1 amended: a cell ends the three passes holding mask_set iff the
coronal scan of its row found truthy (nonzero) bounds with the coronal
index strictly between them, and for each of the sagittal and axial
scans, either that scan's row has no truthy bounds (the pass then leaves
the cell untouched) or the cell's index lies strictly between them; on
the synthetic block grid (block centered, border thicker than the mask
distance in voxels) the output is mask_set exactly on the triple
interior and the original intensity elsewhere. -/
theorem C1_mask_builder :
    (∀ (gm t0 t1 t2 : PyF) (data : Grid) (A S W a s c : ℕ),
      Rect data A S W → IntGrid data →
      (∀ pl ∈ data, ∀ r ∈ pl, ∀ v ∈ r, ¬ pfEq v mask_set) →
      a < A → s < S → c < W →
      (cellAt (build_mask gm t0 t1 t2 data) a s c = mask_set ↔
        (((row_search gm t2 ((data.getD a []).getD s [])).1 ≠ 0 ∧
          (row_search gm t2 ((data.getD a []).getD s [])).2 ≠ 0 ∧
          (row_search gm t2 ((data.getD a []).getD s [])).1 < c ∧
          c < (row_search gm t2 ((data.getD a []).getD s [])).2) ∧
         ((row_search gm t0 (sag_row_at data a c)).1 = 0 ∨
          (row_search gm t0 (sag_row_at data a c)).2 = 0 ∨
          ((row_search gm t0 (sag_row_at data a c)).1 < s ∧
           s < (row_search gm t0 (sag_row_at data a c)).2)) ∧
         ((row_search gm t1 (ax_row_at data s c)).1 = 0 ∨
          (row_search gm t1 (ax_row_at data s c)).2 = 0 ∨
          ((row_search gm t1 (ax_row_at data s c)).1 < a ∧
           a < (row_search gm t1 (ax_row_at data s c)).2))))) ∧
    build_mask (pf 500) (pf 1) (pf 1) (pf 1) block_grid = block_masked := by
  refine ⟨?_, by decide⟩
  intro gm t0 t1 t2 data A S W a s c hrect hint hnm ha hs hc
  exact mask_builder_cell_iff gm t0 t1 t2 data A S W a s c hrect hint hnm ha hs hc

/-- Witness for the quantified part of C1_mask_builder, at the triple
interior cell of the synthetic block grid. -/
theorem C1_mask_builder_witness :
    cellAt (build_mask (pf 500) (pf 1) (pf 1) (pf 1) block_grid) 3 3 3 = mask_set ↔
      (((row_search (pf 500) (pf 1) ((block_grid.getD 3 []).getD 3 [])).1 ≠ 0 ∧
        (row_search (pf 500) (pf 1) ((block_grid.getD 3 []).getD 3 [])).2 ≠ 0 ∧
        (row_search (pf 500) (pf 1) ((block_grid.getD 3 []).getD 3 [])).1 < 3 ∧
        3 < (row_search (pf 500) (pf 1) ((block_grid.getD 3 []).getD 3 [])).2) ∧
       ((row_search (pf 500) (pf 1) (sag_row_at block_grid 3 3)).1 = 0 ∨
        (row_search (pf 500) (pf 1) (sag_row_at block_grid 3 3)).2 = 0 ∨
        ((row_search (pf 500) (pf 1) (sag_row_at block_grid 3 3)).1 < 3 ∧
         3 < (row_search (pf 500) (pf 1) (sag_row_at block_grid 3 3)).2)) ∧
       ((row_search (pf 500) (pf 1) (ax_row_at block_grid 3 3)).1 = 0 ∨
        (row_search (pf 500) (pf 1) (ax_row_at block_grid 3 3)).2 = 0 ∨
        ((row_search (pf 500) (pf 1) (ax_row_at block_grid 3 3)).1 < 3 ∧
         3 < (row_search (pf 500) (pf 1) (ax_row_at block_grid 3 3)).2))) :=
  C1_mask_builder.1 (pf 500) (pf 1) (pf 1) (pf 1) block_grid 6 6 6 3 3 3
    (by decide) (by decide) (by decide) (by decide) (by decide) (by decide)

end PMRI
